import Mathlib

/-!
Verification of the CST-to-AST lowering engine in `lib2toast` (`src/lib2toast/compile.py`).

The Python module walks a `blib2to3` parse tree (a tree of `Leaf` and `Node` values)
and lowers it to a Python `ast` tree.  This file gives a shallow embedding of that
module: the parse tree, the produced AST, the position tracker, the child consumer,
the expression-context state, and the `Compiler` visitor with its helper routines,
all translated function-by-function from the source.  Recursion over the tree is
expressed with an explicit fuel parameter so that every definition is a computable
structural recursion; `Err.outOfFuel` is the (only) artifact of that choice.

The parser, the token table and the grammar symbol table live in the external
`blib2to3` package (treated as a black box by the module); the numeric constants
below model them as distinct naturals, token types below 256 and grammar symbols
at 256 and above, exactly the split the source relies on.
-/

namespace Lib2toast

/-! Token type numbers, modelling `blib2to3.pgen2.token` (external collaborator).
Only distinctness and the below-256 range matter to the lowering code. -/
namespace token

def ENDMARKER : Nat := 0
def NAME : Nat := 1
def NUMBER : Nat := 2
def STRING : Nat := 3
def NEWLINE : Nat := 4
def LPAR : Nat := 7
def RPAR : Nat := 8
def LSQB : Nat := 9
def RSQB : Nat := 10
def COLON : Nat := 11
def COMMA : Nat := 12
def PLUS : Nat := 14
def MINUS : Nat := 15
def STAR : Nat := 16
def SLASH : Nat := 17
def VBAR : Nat := 18
def AMPER : Nat := 19
def LESS : Nat := 20
def GREATER : Nat := 21
def EQUAL : Nat := 22
def DOT : Nat := 23
def PERCENT : Nat := 24
def BACKQUOTE : Nat := 25
def LBRACE : Nat := 26
def RBRACE : Nat := 27
def EQEQUAL : Nat := 28
def NOTEQUAL : Nat := 29
def LESSEQUAL : Nat := 30
def GREATEREQUAL : Nat := 31
def TILDE : Nat := 32
def CIRCUMFLEX : Nat := 33
def LEFTSHIFT : Nat := 34
def RIGHTSHIFT : Nat := 35
def DOUBLESTAR : Nat := 36
def DOUBLESLASH : Nat := 48
def AT : Nat := 50
def COLONEQUAL : Nat := 59
def AWAIT : Nat := 56
def ASYNC : Nat := 57

end token

/-! Grammar symbol numbers, modelling `pygram.python_symbols` (external collaborator).
Grammar symbols are always at least 256. -/
namespace syms

def old_comp_for : Nat := 256
def comp_for : Nat := 257
def testlist_gexp : Nat := 258
def listmaker : Nat := 259
def dictsetmaker : Nat := 260
def star_expr : Nat := 261
def arglist : Nat := 262
def sliceop : Nat := 263
def typevar : Nat := 264
def paramspec : Nat := 265
def typevartuple : Nat := 266
def typeparam : Nat := 267
def file_input : Nat := 268
def simple_stmt : Nat := 269
def atom : Nat := 270
def expr : Nat := 271
def xor_expr : Nat := 272
def and_expr : Nat := 273
def shift_expr : Nat := 274
def arith_expr : Nat := 275
def term : Nat := 276
def comparison : Nat := 277
def not_test : Nat := 278
def and_test : Nat := 279
def or_test : Nat := 280
def test : Nat := 281
def factor : Nat := 282
def power : Nat := 283
def subscript : Nat := 284
def subscriptlist : Nat := 285
def trailer : Nat := 286
def argument : Nat := 287

end syms

/-! The parse tree (`blib2to3.pytree.NL`): a `Leaf` carries a token type, its text
and its position; a `Node` carries a grammar symbol and its children.  The child
sequence is represented by the companion type `CSTList` (isomorphic to `List CST`)
so that recursion over the tree is structural. -/
mutual
inductive CST where
  | leaf (typ : Nat) (value : String) (lineno : Nat) (column : Nat)
  | node (typ : Nat) (children : CSTList)

inductive CSTList where
  | nil
  | cons (head : CST) (tail : CSTList)
end

def CSTList.toList : CSTList → List CST
  | .nil => []
  | .cons c cs => c :: cs.toList

def CSTList.ofList : List CST → CSTList
  | [] => .nil
  | c :: cs => .cons c (CSTList.ofList cs)

theorem CSTList.toList_ofList (l : List CST) : (CSTList.ofList l).toList = l := by
  induction l with
  | nil => rfl
  | cons c cs ih => simp [CSTList.ofList, CSTList.toList, ih]

/-- Convenience constructor: a `Node` from a plain Lean list of children. -/
def CST.nodeOf (typ : Nat) (children : List CST) : CST :=
  .node typ (CSTList.ofList children)

/-- The `.type` attribute shared by `Leaf` and `Node`. -/
def CST.type : CST → Nat
  | .leaf t _ _ _ => t
  | .node t _ => t

/-- The `.children` attribute; a `Leaf` has an empty child list in `pytree`. -/
def CST.children : CST → List CST
  | .leaf _ _ _ _ => []
  | .node _ cs => cs.toList

/-- Models `isinstance(x, Leaf)`. -/
def CST.isLeaf : CST → Bool
  | .leaf _ _ _ _ => true
  | .node _ _ => false

@[simp] theorem CST.type_nodeOf (t : Nat) (l : List CST) : (CST.nodeOf t l).type = t := rfl

@[simp] theorem CST.children_nodeOf (t : Nat) (l : List CST) :
    (CST.nodeOf t l).children = l := by
  simp [CST.nodeOf, CST.children, CSTList.toList_ofList]

@[simp] theorem CST.type_leaf (t : Nat) (v : String) (l c : Nat) :
    (CST.leaf t v l c).type = t := rfl

@[simp] theorem CST.children_leaf (t : Nat) (v : String) (l c : Nat) :
    (CST.leaf t v l c).children = [] := rfl

@[simp] theorem CST.isLeaf_leaf (t : Nat) (v : String) (l c : Nat) :
    (CST.leaf t v l c).isLeaf = true := rfl

@[simp] theorem CST.isLeaf_nodeOf (t : Nat) (l : List CST) :
    (CST.nodeOf t l).isLeaf = false := rfl

/-- Source ranges (`LineRange` in the source, a `TypedDict` with the four fields
in this order: `lineno`, `col_offset`, `end_lineno`, `end_col_offset`). -/
structure LineRange where
  lineno : Nat
  col_offset : Nat
  end_lineno : Nat
  end_col_offset : Nat
deriving DecidableEq, Repr

instance : Inhabited LineRange := ⟨⟨0, 0, 0, 0⟩⟩

/-- Models Python `s.count("\n")`: for a one-character needle, the number of
occurrences of that character. -/
def countChar (c : Char) (s : String) : Nat := s.data.count c

/-- Models Python `s.rfind("\n")`: the highest index at which the character
occurs, or `-1` when it does not occur. -/
def rfindChar (c : Char) (s : String) : Int :=
  match s.data.reverse.findIdx? (fun x => x == c) with
  | some i => ((s.length - 1 - i : Nat) : Int)
  | none => -1

/-- Translation of `get_line_range_for_leaf`.  In the multi-line branch the
source computes `len(value) - value.rfind("\n") - 1`; there `rfind` is
non-negative and at most `len(value) - 1`, so the truncated natural subtraction
below agrees with Python's integer arithmetic. -/
def get_line_range_for_leaf : CST → LineRange
  | .leaf _ value lineno column =>
      let num_newlines := countChar '\n' value
      let end_col_offset :=
        if num_newlines = 0 then column + value.length
        else value.length - (rfindChar '\n' value).toNat - 1
      ⟨lineno, column, lineno + num_newlines, end_col_offset⟩
  | .node _ _ => default

/-- Translation of `unify_line_ranges`: begin's start and end's end. -/
def unify_line_ranges (begin_range end_range : LineRange) : LineRange :=
  ⟨begin_range.lineno, begin_range.col_offset, end_range.end_lineno, end_range.end_col_offset⟩

/-! Translation of `get_line_range`: a leaf's own range, or for a node the
unification of the first child's range with the last child's range.  `glrLast`
computes `get_line_range(node.children[-1])`.  The source raises `IndexError`
on a childless `Node`; the parser never produces one, and that unreachable case
is given the default range here (`get_line_range` is used in positions where
the embedding needs a total function). -/
mutual
def get_line_range : CST → LineRange
  | .leaf t v l c => get_line_range_for_leaf (.leaf t v l c)
  | .node _ .nil => default
  | .node _ (.cons c cs) => unify_line_ranges (get_line_range c) (glrLast (.cons c cs))

def glrLast : CSTList → LineRange
  | .nil => default
  | .cons c .nil => get_line_range c
  | .cons _ (.cons c' cs') => glrLast (.cons c' cs')
end

end Lib2toast

namespace Lib2toast

/-- Expression contexts (`ast.expr_context`): Load, Store, Del. -/
inductive ExprContext where
  | Load
  | Store
  | Del
deriving DecidableEq, Repr

/-- Binary operators (`ast.operator`), as mapped by `TOKEN_TYPE_TO_BINOP`. -/
inductive BinOpKind where
  | Add | Sub | Mult | Div | MatMult | FloorDiv | Mod | Pow
  | LShift | RShift | BitAnd | BitOr | BitXor
deriving DecidableEq, Repr

/-- Comparison operators (`ast.cmpop`). -/
inductive CmpOpKind where
  | Eq | NotEq | Lt | Gt | LtE | GtE | Is | IsNot | In | NotIn
deriving DecidableEq, Repr

/-- Unary operators (`ast.unaryop`). -/
inductive UnaryOpKind where
  | UAdd | USub | Invert | Not
deriving DecidableEq, Repr

/-- Boolean operators (`ast.boolop`). -/
inductive BoolOpKind where
  | And | Or
deriving DecidableEq, Repr

/-- Constant values.  Numeric and string literal evaluation is delegated by the
source to `ast.literal_eval` (an external capability, spec section 6); the
embedding keeps the raw token text under the `literal` constructor. -/
inductive ConstVal where
  | ellipsisConst
  | literal (raw : String)
deriving DecidableEq, Repr

/-! The produced AST (`ast.AST`), as a closed tagged union covering every node
the source constructs.  Every constructor carries the `LineRange` the source
passes as keyword arguments (except `ComprehensionNode`: `ast.comprehension`
has no position attributes, and the source passes none).  On Python 3.12 the
`ast.TypeVar`/`ast.ParamSpec`/`ast.TypeVarTuple` constructors lack the
`default_value` field; the embedding represents that absent field as `none`. -/
mutual
inductive AST where
  | Module (body : List AST) (r : LineRange)
  | ExprStmt (value : AST) (r : LineRange)
  | Name (id : String) (ctx : ExprContext) (r : LineRange)
  | Constant (value : ConstVal) (r : LineRange)
  | BinOp (left : AST) (op : BinOpKind) (right : AST) (r : LineRange)
  | BoolOp (op : BoolOpKind) (values : List AST) (r : LineRange)
  | UnaryOp (op : UnaryOpKind) (operand : AST) (r : LineRange)
  | Compare (left : AST) (ops : List CmpOpKind) (comparators : List AST) (r : LineRange)
  | Call (func : AST) (args : List AST) (keywords : List KeywordNode) (r : LineRange)
  | Attribute (value : AST) (attr : String) (ctx : ExprContext) (r : LineRange)
  | Subscript (value : AST) (slice : AST) (ctx : ExprContext) (r : LineRange)
  | Slice (lower : Option AST) (upper : Option AST) (step : Option AST) (r : LineRange)
  | TupleExpr (elts : List AST) (ctx : ExprContext) (r : LineRange)
  | ListExpr (elts : List AST) (ctx : ExprContext) (r : LineRange)
  | SetExpr (elts : List AST) (ctx : ExprContext) (r : LineRange)
  | DictExpr (keys : List (Option AST)) (values : List AST) (r : LineRange)
  | ListComp (elt : AST) (generators : List ComprehensionNode) (r : LineRange)
  | SetComp (elt : AST) (generators : List ComprehensionNode) (r : LineRange)
  | DictComp (key : Option AST) (value : AST) (generators : List ComprehensionNode)
      (r : LineRange)
  | GeneratorExp (elt : AST) (generators : List ComprehensionNode) (r : LineRange)
  | NamedExpr (target : AST) (value : AST) (r : LineRange)
  | Starred (value : AST) (ctx : ExprContext) (r : LineRange)
  | IfExp (test : AST) (body : AST) (orelse : AST) (r : LineRange)
  | AwaitExpr (value : AST) (r : LineRange)
  | TypeVar (name : String) (bound : Option AST) (default_value : Option AST) (r : LineRange)
  | ParamSpec (name : String) (default_value : Option AST) (r : LineRange)
  | TypeVarTuple (name : String) (default_value : Option AST) (r : LineRange)

inductive KeywordNode where
  | mk (arg : Option String) (value : AST) (r : LineRange)

inductive ComprehensionNode where
  | mk (target : AST) (iter : AST) (ifs : List AST) (is_async : Nat)
end

/-- Models `isinstance(x, ast.expr)`: true for every expression variant.
`ast.Expr` (the statement) and `ast.Module` are not expressions, and the
type-parameter nodes are `ast.type_param`s, not expressions; `ast.Slice`
is an expression on the Python versions the source supports. -/
def AST.isExpr : AST → Bool
  | .Module _ _ => false
  | .ExprStmt _ _ => false
  | .TypeVar _ _ _ _ => false
  | .ParamSpec _ _ _ => false
  | .TypeVarTuple _ _ _ => false
  | _ => true

/-- Models `isinstance(x, ast.Name)`. -/
def AST.isName : AST → Bool
  | .Name _ _ _ => true
  | _ => false

/-- Fatal signals of the source, plus the fuel artifact.
`unsupportedSyntax` is `UnsupportedSyntaxError` (carrying the construct name),
`notImplemented` is the dispatch-gap `NotImplementedError` (carrying the node
type whose name Python would interpolate), `notImplementedRepr` the explicit
`NotImplementedError(repr(...))` raises, `assertionError` a failed `assert`,
`keyError` a failed dict lookup, and `runtimeError` the index/attribute errors
Python raises on malformed trees. -/
inductive Err where
  | unsupportedSyntax (msg : String)
  | notImplemented (typ : Nat)
  | notImplementedRepr (node : CST)
  | assertionError
  | keyError
  | runtimeError
  | outOfFuel

/-- The compiler monad: the single piece of mutable state is
`Compiler.expr_context`; exceptions propagate without rolling the state back,
exactly as Python attribute mutation behaves across `raise`. -/
def CompM (α : Type) : Type := ExprContext → Except Err α × ExprContext

def CompM.pure (a : α) : CompM α := fun s => (.ok a, s)

def CompM.bind (x : CompM α) (f : α → CompM β) : CompM β := fun s =>
  match x s with
  | (.ok a, s') => f a s'
  | (.error e, s') => (.error e, s')

instance : Monad CompM where
  pure := CompM.pure
  bind := CompM.bind

def CompM.throw (e : Err) : CompM α := fun s => (.error e, s)

/-- Reading `self.expr_context`. -/
def getCtx : CompM ExprContext := fun s => (.ok s, s)

/-- Translation of the `set_expr_context` context manager: save the old
context, run the body under the new one, and restore the old context in a
`finally`, i.e. on both the normal and the raising exit path. -/
def set_expr_context (expr_context : ExprContext) (body : CompM α) : CompM α := fun s =>
  match body expr_context with
  | (r, _) => (r, s)

/-- Models `node.children[index]`, raising `IndexError` when absent. -/
def getChild (children : List CST) (index : Nat) : CompM CST :=
  match children[index]? with
  | some c => CompM.pure c
  | none => CompM.throw .runtimeError

/-- Models `leaf.value`; accessing `.value` on a `Node` raises `AttributeError`. -/
def getValue : CST → CompM String
  | .leaf _ v _ _ => CompM.pure v
  | .node _ _ => CompM.throw .runtimeError

/-- Models visiting an `Optional[NL]`: Python's `self.visit(None)` raises. -/
def visitOpt (rec : CST → CompM AST) : Option CST → CompM AST
  | some c => rec c
  | none => CompM.throw .runtimeError

/-- Models a Python `assert`. -/
def assertM (b : Bool) : CompM Unit :=
  if b then CompM.pure () else CompM.throw .assertionError

/-- Models `get_line_range` applied to an `Optional[NL]`; the `none` case is
unreachable at every use site (the child was already visited successfully). -/
def glrOpt : Option CST → LineRange
  | some c => get_line_range c
  | none => default

/-- Translation of the `TOKEN_TYPE_TO_BINOP` dict; `none` models `KeyError`. -/
def TOKEN_TYPE_TO_BINOP (t : Nat) : Option BinOpKind :=
  if t = token.PLUS then some .Add
  else if t = token.MINUS then some .Sub
  else if t = token.STAR then some .Mult
  else if t = token.SLASH then some .Div
  else if t = token.AT then some .MatMult
  else if t = token.DOUBLESLASH then some .FloorDiv
  else if t = token.PERCENT then some .Mod
  else if t = token.DOUBLESTAR then some .Pow
  else if t = token.LEFTSHIFT then some .LShift
  else if t = token.RIGHTSHIFT then some .RShift
  else if t = token.AMPER then some .BitAnd
  else if t = token.VBAR then some .BitOr
  else if t = token.CIRCUMFLEX then some .BitXor
  else none

/-- Translation of the `TOKEN_TYPE_TO_COMPARE_OP` dict. -/
def TOKEN_TYPE_TO_COMPARE_OP (t : Nat) : Option CmpOpKind :=
  if t = token.EQEQUAL then some .Eq
  else if t = token.NOTEQUAL then some .NotEq
  else if t = token.LESS then some .Lt
  else if t = token.GREATER then some .Gt
  else if t = token.LESSEQUAL then some .LtE
  else if t = token.GREATEREQUAL then some .GtE
  else none

/-- Translation of the `NAME_TO_COMPARE_OP` dict. -/
def NAME_TO_COMPARE_OP (s : String) : Option CmpOpKind :=
  if s = "is" then some .Is
  else if s = "in" then some .In
  else none

/-- Translation of the `TOKEN_TYPE_TO_UNARY_OP` dict. -/
def TOKEN_TYPE_TO_UNARY_OP (t : Nat) : Option UnaryOpKind :=
  if t = token.PLUS then some .UAdd
  else if t = token.MINUS then some .USub
  else if t = token.TILDE then some .Invert
  else none

/-- Translation of the `_Consumer` dataclass: a child sequence and an index. -/
structure Consumer where
  children : List CST
  index : Nat

/-- Translation of `_Consumer.consume`: return the current child and advance
exactly when a current child exists and the optional expected type matches;
otherwise report absence and leave the index untouched.  A total function:
the consumer never raises. -/
def Consumer.consume (c : Consumer) (typ : Option Nat) : Option CST × Consumer :=
  match c.children[c.index]? with
  | some child =>
      if typ = none ∨ typ = some child.type then
        (some child, ⟨c.children, c.index + 1⟩)
      else
        (none, c)
  | none => (none, c)

/-- Translation of `_Consumer.done`. -/
def Consumer.done (c : Consumer) : Bool :=
  c.children.length ≤ c.index

/-- Models the Python target version the source consults through
`sys.version_info` (the spec's "configured target version"). -/
structure PyVersion where
  major : Nat
  minor : Nat
deriving DecidableEq, Repr

/-- Models `sys.version_info >= (a, b)` (lexicographic tuple comparison). -/
def PyVersion.atLeast (v : PyVersion) (a b : Nat) : Bool :=
  a < v.major || (v.major = a && b ≤ v.minor)

end Lib2toast

namespace Lib2toast

/-- The type of the recursive visitation callback (`Visitor.visit`). -/
abbrev Visit := CST → CompM AST

/-- Models the Python slice `children[::2]` (every other child, used to skip
the comma separators). -/
def everyOther : List CST → List CST
  | [] => []
  | [a] => [a]
  | a :: _ :: rest => a :: everyOther rest

/-- Sequential visitation of a child list (a Python list comprehension
`[self.visit(child) for child in ...]`). -/
def mapVisit (rec : Visit) : List CST → CompM (List AST)
  | [] => CompM.pure []
  | c :: cs => do
      let a ← rec c
      let rest ← mapVisit rec cs
      pure (a :: rest)

/-- Sequential visitation asserting each result is an expression (the
`visit_and_test`/`visit_or_test` loop bodies). -/
def mapVisitAssertExpr (rec : Visit) : List CST → CompM (List AST)
  | [] => CompM.pure []
  | c :: cs => do
      let operand ← rec c
      assertM operand.isExpr
      let rest ← mapVisitAssertExpr rec cs
      pure (operand :: rest)

/-- Models `get_line_range(n.children[-1])` with Python's `IndexError` on an
empty child list. -/
def lastChildRange (n : CST) : CompM LineRange :=
  match n.children.getLast? with
  | some c => CompM.pure (get_line_range c)
  | none => CompM.throw .runtimeError

/-- Translation of `Compiler._compile_named_expr`.  The source receives a
child sequence and touches `children[0]` and `children[2]` only; both are
passed here directly (as `Option`s because one call site feeds consumer
results that can be absent, which Python would fault on while visiting). -/
def compile_named_expr (rec : Visit) (c0 c2 : Option CST) : CompM AST := do
  let target ← set_expr_context ExprContext.Store (visitOpt rec c0)
  if !target.isName then
    CompM.throw (.unsupportedSyntax "walrus target must be a name")
  else do
    let value ← visitOpt rec c2
    pure (AST.NamedExpr target value (unify_line_ranges (glrOpt c0) (glrOpt c2)))

/-- Body of `Compiler._compile_comprehension`, abstracted over the
`_compile_comp_iter` callback so that the mutual recursion between the two
helpers is tied through a single fuel parameter below. -/
def compile_comprehension_body (rec : Visit)
    (compIter : CST → CompM (List AST × List ComprehensionNode)) (node : CST) :
    CompM (List ComprehensionNode) := do
  assertM (node.type == syms.old_comp_for || node.type == syms.comp_for)
  let c0 ← getChild node.children 0
  let (is_async, children) :=
    if c0.type = token.ASYNC then (1, node.children.drop 1) else (0, node.children)
  let (ifs, comps) ←
    if children.length > 4 then do
      let c4 ← getChild children 4
      compIter c4
    else
      pure (([] : List AST), ([] : List ComprehensionNode))
  let target ← set_expr_context ExprContext.Store (do
    let c1 ← getChild children 1
    rec c1)
  let iter ← rec (← getChild children 3)
  pure (ComprehensionNode.mk target iter ifs is_async :: comps)

/-- Translation of `Compiler._compile_comp_iter` (mutually recursive with
`_compile_comprehension` in the source; the recursion is fuelled here). -/
def compile_comp_iter (rec : Visit) : Nat → CST → CompM (List AST × List ComprehensionNode)
  | 0, _ => CompM.throw .outOfFuel
  | fuel + 1, node => do
      let c0 ← getChild node.children 0
      let v ← getValue c0
      if v = "if" then do
        let test ← rec (← getChild node.children 1)
        assertM test.isExpr
        let (ifs, comps) ←
          if node.children.length > 2 then do
            let c2 ← getChild node.children 2
            compile_comp_iter rec fuel c2
          else
            pure (([] : List AST), ([] : List ComprehensionNode))
        pure (test :: ifs, comps)
      else do
        let comps ← compile_comprehension_body rec (compile_comp_iter rec fuel) node
        pure (([] : List AST), comps)

/-- Translation of `Compiler._compile_comprehension`. -/
def compile_comprehension (rec : Visit) (fuel : Nat) : CST → CompM (List ComprehensionNode) :=
  compile_comprehension_body rec (compile_comp_iter rec fuel)

/-- The running state of the `visit_atom` dict/set-maker loop between
iterations. -/
structure DictSetState where
  consumer : Consumer
  is_dict : Bool
  keys : List (Option AST)
  values : List AST
  elts : List AST

/-- The trailing-comprehension check shared by the element branches of the
dict/set-maker loop (`if comp_for := consumer.consume(syms.comp_for): ...`).
`inl` is an early `return` out of the loop, `inr` continues it. -/
def dictset_comp_check (rec : Visit) (fuel : Nat) (node : CST) (consumer : Consumer)
    (is_dict : Bool) (keys : List (Option AST)) (values : List AST) (elts : List AST) :
    CompM (AST ⊕ DictSetState) := do
  let (comp_for, consumer) := consumer.consume (some syms.comp_for)
  match comp_for with
  | some cf => do
      let comps ← compile_comprehension rec fuel cf
      if is_dict then do
        assertM (keys.length == 1)
        assertM (values.length == 1)
        assertM elts.isEmpty
        match keys, values with
        | [k], [v] => pure (.inl (AST.DictComp k v comps (get_line_range node)))
        | _, _ => CompM.throw .runtimeError
      else do
        assertM (elts.length == 1)
        assertM keys.isEmpty
        assertM values.isEmpty
        match elts with
        | [e] => pure (.inl (AST.SetComp e comps (get_line_range node)))
        | _ => CompM.throw .runtimeError
  | none => pure (.inr ⟨consumer, is_dict, keys, values, elts⟩)

/-- One iteration of the dict/set-maker loop body of `visit_atom` (everything
inside `while not consumer.done():` up to the comma handling). -/
def dictset_step (rec : Visit) (fuel : Nat) (node : CST) (consumer : Consumer)
    (is_dict : Bool) (keys : List (Option AST)) (values : List AST) (elts : List AST) :
    CompM (AST ⊕ DictSetState) := do
  let (dstar, consumer) := consumer.consume (some token.DOUBLESTAR)
  match dstar with
  | some _ => do
      let is_dict := true
      let (expr, consumer) := consumer.consume none
      let keys := keys ++ [none]
      let v ← visitOpt rec expr
      let values := values ++ [v]
      pure (.inr ⟨consumer, is_dict, keys, values, elts⟩)
  | none =>
    match consumer.consume (some syms.star_expr) with
    | (some star_expr, consumer) => do
        let (ve, consumer) := consumer.consume none
        let v ← visitOpt rec ve
        let ctx ← getCtx
        let elts := elts ++ [AST.Starred v ctx (get_line_range star_expr)]
        pure (.inr ⟨consumer, is_dict, keys, values, elts⟩)
    | (none, consumer) => do
        let (key_node, consumer) := consumer.consume none
        let (walrus, consumer) := consumer.consume (some token.COLONEQUAL)
        match walrus with
        | some _ => do
            let (value_node, consumer) := consumer.consume none
            let elt ← compile_named_expr rec key_node value_node
            let elts := elts ++ [elt]
            dictset_comp_check rec fuel node consumer is_dict keys values elts
        | none =>
          let (colon, consumer) := consumer.consume (some token.COLON)
          match colon with
          | some _ => do
              let key ← visitOpt rec key_node
              let (vn, consumer) := consumer.consume none
              let value ← visitOpt rec vn
              let keys := keys ++ [some key]
              let values := values ++ [value]
              let is_dict := true
              dictset_comp_check rec fuel node consumer is_dict keys values elts
          | none => do
              let v ← visitOpt rec key_node
              let elts := elts ++ [v]
              dictset_comp_check rec fuel node consumer is_dict keys values elts

/-- The epilogue of the dict/set-maker loop of `visit_atom` (the code after
`while not consumer.done():`). -/
def dictset_finish (node : CST) (is_dict : Bool) (keys : List (Option AST))
    (values : List AST) (elts : List AST) : CompM AST :=
  if is_dict then do
    assertM elts.isEmpty
    pure (AST.DictExpr keys values (get_line_range node))
  else do
    assertM keys.isEmpty
    assertM values.isEmpty
    let ctx ← getCtx
    pure (AST.SetExpr elts ctx (get_line_range node))

/-- The dict/set-maker loop of `visit_atom`.  Each iteration consumes at least
one child, so `gas` (initialised to the number of children) bounds the
iteration count; `outOfFuel` is unreachable on real inputs. -/
def dictset_loop (rec : Visit) (fuel : Nat) (node : CST) :
    Nat → Consumer → Bool → List (Option AST) → List AST → List AST → CompM AST
  | 0, consumer, is_dict, keys, values, elts =>
    if consumer.done then
      dictset_finish node is_dict keys values elts
    else
      CompM.throw .outOfFuel
  | gas + 1, consumer, is_dict, keys, values, elts =>
    if consumer.done then
      dictset_finish node is_dict keys values elts
    else do
      match ← dictset_step rec fuel node consumer is_dict keys values elts with
      | .inl result => pure result
      | .inr st => do
          let consumer ←
            if st.consumer.done then
              pure st.consumer
            else do
              let (comma, consumer') := st.consumer.consume (some token.COMMA)
              assertM comma.isSome
              pure consumer'
          dictset_loop rec fuel node gas consumer st.is_dict st.keys st.values st.elts

/-- Translation of `Compiler.visit_testlist_gexp`; the dispatcher calls it
with `parent_node = node` (the source's `None` default). -/
def visit_testlist_gexp (rec : Visit) (fuel : Nat) (node : CST) (parent_node : CST) :
    CompM AST := do
  let c1 ← getChild node.children 1
  if c1.type = syms.old_comp_for then do
    let elt ← rec (← getChild node.children 0)
    let comps ← compile_comprehension rec fuel c1
    pure (AST.GeneratorExp elt comps (get_line_range parent_node))
  else do
    let elts ← mapVisit rec (everyOther node.children)
    let ctx ← getCtx
    pure (AST.TupleExpr elts ctx (get_line_range parent_node))

/-- Translation of `Compiler.visit_atom`. -/
def visit_atom (rec : Visit) (fuel : Nat) (node : CST) : CompM AST := do
  let c0 ← getChild node.children 0
  if c0.type = token.LPAR then
    if node.children.length = 2 then do
      let ctx ← getCtx
      pure (AST.TupleExpr [] ctx (get_line_range node))
    else do
      let c1 ← getChild node.children 1
      if c1.type = syms.testlist_gexp then
        visit_testlist_gexp rec fuel c1 node
      else
        rec c1
  else if c0.type = token.LSQB then
    if node.children.length = 2 then do
      let ctx ← getCtx
      pure (AST.ListExpr [] ctx (get_line_range node))
    else do
      let inner ← getChild node.children 1
      if inner.type ≠ syms.listmaker then do
        let v ← rec inner
        let ctx ← getCtx
        pure (AST.ListExpr [v] ctx (get_line_range node))
      else do
        let i1 ← getChild inner.children 1
        if i1.type = syms.old_comp_for then do
          let elt ← rec (← getChild inner.children 0)
          let comps ← compile_comprehension rec fuel i1
          pure (AST.ListComp elt comps (get_line_range node))
        else do
          let elts ← mapVisit rec (everyOther inner.children)
          let ctx ← getCtx
          pure (AST.ListExpr elts ctx (get_line_range node))
  else if c0.type = token.LBRACE then
    if node.children.length = 2 then
      pure (AST.DictExpr [] [] (get_line_range node))
    else do
      let inner ← getChild node.children 1
      if inner.type ≠ syms.dictsetmaker then do
        let v ← rec inner
        let ctx ← getCtx
        pure (AST.SetExpr [v] ctx (get_line_range node))
      else
        dictset_loop rec fuel node inner.children.length ⟨inner.children, 0⟩ false [] [] []
  else if c0.type = token.DOT then do
    assertM (node.children.length == 3)
    assertM (node.children.all (fun child => child.type == token.DOT))
    pure (AST.Constant ConstVal.ellipsisConst (get_line_range node))
  else if c0.type = token.BACKQUOTE then do
    let callee := AST.Name "repr" ExprContext.Load (get_line_range node)
    let arg ← rec (← getChild node.children 1)
    pure (AST.Call callee [arg] [] (get_line_range node))
  else
    CompM.throw (.notImplementedRepr node)

/-- The `for child_index in range(2, len(node.children), 2)` loop of
`visit_expr`, translated as recursion over the remaining operator/operand
pairs (`begin_range` stays fixed at the first operand's range, as in the
source). -/
def visit_expr_loop (rec : Visit) (begin_range : LineRange) :
    AST → List CST → CompM AST
  | op, operator :: child :: rest => do
      match TOKEN_TYPE_TO_BINOP operator.type with
      | some opk => do
          let right ← rec child
          visit_expr_loop rec begin_range
            (AST.BinOp op opk right (unify_line_ranges begin_range (get_line_range child)))
            rest
      | none => CompM.throw .keyError
  | op, _ => CompM.pure op

/-- Translation of `Compiler.visit_expr` (also bound in the source to
`visit_xor_expr`, `visit_and_expr`, `visit_shift_expr`, `visit_arith_expr`
and `visit_term`). -/
def visit_expr (rec : Visit) (node : CST) : CompM AST := do
  let c0 ← getChild node.children 0
  let op ← rec c0
  let begin_range := get_line_range c0
  visit_expr_loop rec begin_range op (node.children.drop 1)

/-- The operator/operand loop of `visit_comparison`, accumulating the two
parallel lists. -/
def comparison_loop (rec : Visit) :
    List CST → List CmpOpKind → List AST → CompM (List CmpOpKind × List AST)
  | operator_node :: child :: rest, ops, comparators => do
      let operator ←
        if operator_node.type = token.NAME then do
          let v ← getValue operator_node
          match NAME_TO_COMPARE_OP v with
          | some op => CompM.pure op
          | none => CompM.throw .keyError
        else if operator_node.isLeaf then
          match TOKEN_TYPE_TO_COMPARE_OP operator_node.type with
          | some op => CompM.pure op
          | none => CompM.throw .keyError
        else do
          assertM (operator_node.children.length == 2)
          let w0 ← getValue (← getChild operator_node.children 0)
          if w0 = "not" then do
            let w1 ← getValue (← getChild operator_node.children 1)
            assertM (w1 == "in")
            pure CmpOpKind.NotIn
          else do
            assertM (w0 == "is")
            let w1 ← getValue (← getChild operator_node.children 1)
            assertM (w1 == "not")
            pure CmpOpKind.IsNot
      let right ← rec child
      assertM right.isExpr
      comparison_loop rec rest (ops ++ [operator]) (comparators ++ [right])
  | _, ops, comparators => CompM.pure (ops, comparators)

/-- Translation of `Compiler.visit_comparison`. -/
def visit_comparison (rec : Visit) (node : CST) : CompM AST := do
  let left ← rec (← getChild node.children 0)
  let (ops, comparators) ← comparison_loop rec (node.children.drop 1) [] []
  pure (AST.Compare left ops comparators (get_line_range node))

/-- Translation of `Compiler.visit_star_expr`. -/
def visit_star_expr (rec : Visit) (node : CST) : CompM AST := do
  let v ← rec (← getChild node.children 1)
  let ctx ← getCtx
  pure (AST.Starred v ctx (get_line_range node))

/-- Translation of `Compiler.visit_not_test`. -/
def visit_not_test (rec : Visit) (node : CST) : CompM AST := do
  let operand ← rec (← getChild node.children 1)
  pure (AST.UnaryOp UnaryOpKind.Not operand (get_line_range node))

/-- Translation of `Compiler.visit_and_test`. -/
def visit_and_test (rec : Visit) (node : CST) : CompM AST := do
  let operands ← mapVisitAssertExpr rec (everyOther node.children)
  pure (AST.BoolOp BoolOpKind.And operands (get_line_range node))

/-- Translation of `Compiler.visit_or_test`. -/
def visit_or_test (rec : Visit) (node : CST) : CompM AST := do
  let operands ← mapVisitAssertExpr rec (everyOther node.children)
  pure (AST.BoolOp BoolOpKind.Or operands (get_line_range node))

/-- Translation of `Compiler.visit_test` (the 5-child conditional
expression; sub-expressions are visited in the source's keyword-argument
order: test, body, orelse). -/
def visit_test (rec : Visit) (node : CST) : CompM AST := do
  assertM (node.children.length == 5)
  let w1 ← getValue (← getChild node.children 1)
  assertM (w1 == "if")
  let w3 ← getValue (← getChild node.children 3)
  assertM (w3 == "else")
  let test ← rec (← getChild node.children 2)
  let body ← rec (← getChild node.children 0)
  let orelse ← rec (← getChild node.children 4)
  pure (AST.IfExp test body orelse (get_line_range node))

/-- Translation of `Compiler.visit_factor`. -/
def visit_factor (rec : Visit) (node : CST) : CompM AST := do
  let c0 ← getChild node.children 0
  match TOKEN_TYPE_TO_UNARY_OP c0.type with
  | some opk => do
      let operand ← rec (← getChild node.children 1)
      pure (AST.UnaryOp opk operand (get_line_range node))
  | none => CompM.throw .keyError

/-- Translation of `Compiler._compile_arglist` and its classification loop
over the arguments. -/
def arglist_loop (rec : Visit) (fuel : Nat) (node : CST) (parent_node : CST) :
    List CST → List AST → List KeywordNode → CompM (List AST × List KeywordNode)
  | [], args, keywords => CompM.pure (args, keywords)
  | argument :: rest, args, keywords => do
      if argument.isLeaf then do
        let arg ← rec argument
        assertM arg.isExpr
        arglist_loop rec fuel node parent_node rest (args ++ [arg]) keywords
      else do
        let c0 ← getChild argument.children 0
        if c0.type = token.STAR then do
          let v ← rec (← getChild argument.children 1)
          arglist_loop rec fuel node parent_node rest
            (args ++ [AST.Starred v ExprContext.Load (get_line_range argument)]) keywords
        else if c0.type = token.DOUBLESTAR then do
          let v ← rec (← getChild argument.children 1)
          arglist_loop rec fuel node parent_node rest args
            (keywords ++ [KeywordNode.mk none v (get_line_range argument)])
        else if argument.children.length = 1 then do
          let expr ← rec (← getChild argument.children 0)
          assertM expr.isExpr
          arglist_loop rec fuel node parent_node rest (args ++ [expr]) keywords
        else if argument.children.length = 2 then do
          let inner ← rec (← getChild argument.children 0)
          let comps ← compile_comprehension rec fuel (← getChild argument.children 1)
          arglist_loop rec fuel node parent_node rest
            (args ++ [AST.GeneratorExp inner comps (get_line_range parent_node)]) keywords
        else if (argument.children[1]?).map CST.type = some token.COLONEQUAL then do
          let walrus ← compile_named_expr rec argument.children[0]? argument.children[2]?
          if argument.children.length > 3 then do
            -- source quirk, line 580: the comprehension node is read from
            -- `node.children[3]`, not from this argument's children
            let comps ← compile_comprehension rec fuel (← getChild node.children 3)
            arglist_loop rec fuel node parent_node rest
              (args ++ [AST.GeneratorExp walrus comps (get_line_range parent_node)]) keywords
          else
            arglist_loop rec fuel node parent_node rest (args ++ [walrus]) keywords
        else if (argument.children[1]?).map CST.type = some token.EQUAL then do
          let t0 ← getChild argument.children 0
          let target ← set_expr_context ExprContext.Store (rec t0)
          if !target.isName then
            CompM.throw (.unsupportedSyntax "keyword argument target must be a name")
          else do
            let value ← rec (← getChild argument.children 2)
            match target with
            | AST.Name id _ _ =>
                arglist_loop rec fuel node parent_node rest args
                  (keywords ++ [KeywordNode.mk (some id) value (get_line_range argument)])
            | _ => CompM.throw .runtimeError
        else
          CompM.throw (.notImplementedRepr argument)

/-- Translation of `Compiler._compile_arglist`. -/
def compile_arglist (rec : Visit) (fuel : Nat) (node : CST) (parent_node : CST) :
    CompM (List AST × List KeywordNode) := do
  let arguments :=
    if node.isLeaf = true ∨ node.type ≠ syms.arglist then [node]
    else everyOther node.children
  arglist_loop rec fuel node parent_node arguments [] []

/-- The trailer loop of `Compiler._visit_power_without_await`, threading the
accumulating base expression through call, subscript and attribute suffixes. -/
def trailer_loop (rec : Visit) (fuel : Nat) (begin_range : LineRange) :
    AST → List CST → CompM AST
  | atom, [] => CompM.pure atom
  | atom, trailer :: rest => do
      let t0 ← getChild trailer.children 0
      if t0.type = token.LPAR then do
        let (args, keywords) ←
          if trailer.children.length = 2 then
            CompM.pure (([] : List AST), ([] : List KeywordNode))
          else do
            let a1 ← getChild trailer.children 1
            compile_arglist rec fuel a1 trailer
        let endRange ← lastChildRange trailer
        trailer_loop rec fuel begin_range
          (AST.Call atom args keywords (unify_line_ranges begin_range endRange)) rest
      else if t0.type = token.LSQB then do
        let subscript ← rec (← getChild trailer.children 1)
        let ctx ← getCtx
        let endRange ← lastChildRange trailer
        trailer_loop rec fuel begin_range
          (AST.Subscript atom subscript ctx (unify_line_ranges begin_range endRange)) rest
      else if t0.type = token.DOT then do
        let c1 ← getChild trailer.children 1
        let attr ← getValue c1
        let ctx ← getCtx
        trailer_loop rec fuel begin_range
          (AST.Attribute atom attr ctx
            (unify_line_ranges begin_range (get_line_range c1))) rest
      else
        CompM.throw (.notImplementedRepr trailer)

/-- Translation of `Compiler._visit_power_without_await`. -/
def visit_power_without_await (rec : Visit) (fuel : Nat) (children : List CST) :
    CompM AST := do
  match children with
  | [] => CompM.throw .runtimeError
  | c0 :: trailers => do
      let atom ← rec c0
      let begin_range := get_line_range c0
      trailer_loop rec fuel begin_range atom trailers

/-- Translation of `Compiler._visit_power_without_power`. -/
def visit_power_without_power (rec : Visit) (fuel : Nat) (children : List CST) :
    CompM AST := do
  match children with
  | [] => CompM.throw .runtimeError
  | c0 :: rest =>
    if c0.type = token.AWAIT then do
      let line_range := unify_line_ranges (get_line_range c0)
        (get_line_range ((c0 :: rest).getLast (by simp)))
      let value ← visit_power_without_await rec fuel rest
      pure (AST.AwaitExpr value line_range)
    else
      visit_power_without_await rec fuel children

/-- Translation of `Compiler.visit_power`.  As in the source, the `**`
operand (`children[-1]`) is visited before the base (keyword-argument
evaluation order). -/
def visit_power (rec : Visit) (fuel : Nat) (node : CST) : CompM AST := do
  let children := node.children
  if children.length > 2 ∧
      (children[children.length - 2]?).map CST.type = some token.DOUBLESTAR then do
    let operand ← rec (← getChild children (children.length - 1))
    let left ← visit_power_without_power rec fuel children.dropLast.dropLast
    pure (AST.BinOp left BinOpKind.Pow operand (get_line_range node))
  else
    visit_power_without_power rec fuel children

/-- Translation of `Compiler.visit_subscript`.  Source line 656 compares
`node.children[1].value` (a string) with `token.COLONEQUAL` (an int); in
Python that equality is always `False`, so the named-expression branch is
unreachable and its guard is modelled by conjoining `False`. -/
def visit_subscript (rec : Visit) (node : CST) : CompM AST := do
  if node.children.length = 3 ∧ (node.children[1]?).map CST.isLeaf = some true ∧ False then
    compile_named_expr rec node.children[0]? node.children[2]?
  else do
    let consumer : Consumer := ⟨node.children, 0⟩
    let (colon1, consumer) := consumer.consume (some token.COLON)
    let (lower, consumer) ←
      if colon1.isNone then do
        let (ln, consumer) := consumer.consume none
        let l ← visitOpt rec ln
        let (colon2, consumer) := consumer.consume (some token.COLON)
        assertM colon2.isSome
        CompM.pure (some l, consumer)
      else
        CompM.pure ((none : Option AST), consumer)
    match consumer.consume (some syms.sliceop) with
    | (some sliceop, _) => do
        let step ← rec (← getChild sliceop.children 1)
        pure (AST.Slice lower none (some step) (get_line_range node))
    | (none, consumer) => do
        let (colon3, consumer) := consumer.consume (some token.COLON)
        if colon3.isNone then do
          let (upper_node, consumer) := consumer.consume none
          let upper ←
            match upper_node with
            | none => CompM.pure (none : Option AST)
            | some un => do
                let u ← rec un
                CompM.pure (some u)
          match consumer.consume (some syms.sliceop) with
          | (some sliceop, _) => do
              let step ← rec (← getChild sliceop.children 1)
              pure (AST.Slice lower upper (some step) (get_line_range node))
          | (none, _) =>
              pure (AST.Slice lower upper none (get_line_range node))
        else
          pure (AST.Slice lower none none (get_line_range node))

/-- Translation of `Compiler.visit_subscriptlist`. -/
def visit_subscriptlist (rec : Visit) (node : CST) : CompM AST := do
  let elts ← mapVisit rec (everyOther node.children)
  let ctx ← getCtx
  pure (AST.TupleExpr elts ctx (get_line_range node))

/-- The index-1/index-3 scan of `visit_typevar` (`for index in (1, 3): ...`),
filling in the optional bound and the optional default from the punctuation. -/
def typevar_scan (rec : Visit) (children : List CST) (index : Nat)
    (bound default_value : Option AST) : CompM (Option AST × Option AST) :=
  if children.length > index then do
    let punc ← getChild children index
    if punc.type = token.COLON then do
      let b ← rec (← getChild children (index + 1))
      pure (some b, default_value)
    else if punc.type = token.EQUAL then do
      let d ← rec (← getChild children (index + 1))
      pure (bound, some d)
    else
      pure (bound, default_value)
  else
    CompM.pure (bound, default_value)

/-- Translation of `Compiler.visit_typevar`.  On a 3.12 target a present
default raises `UnsupportedSyntaxError("TypeVar default")`; below 3.12 the
whole construct raises. -/
def visit_typevar (ver : PyVersion) (rec : Visit) (node : CST) : CompM AST := do
  if ver.atLeast 3 12 then do
    let bd ← typevar_scan rec node.children 1 none none
    let bd ← typevar_scan rec node.children 3 bd.1 bd.2
    let bound := bd.1
    let default_value := bd.2
    if ver.atLeast 3 13 then do
      let name ← getValue (← getChild node.children 0)
      pure (AST.TypeVar name bound default_value (get_line_range node))
    else
      if default_value.isSome && !(ver.atLeast 3 13) then
        CompM.throw (.unsupportedSyntax "TypeVar default")
      else do
        let name ← getValue (← getChild node.children 0)
        pure (AST.TypeVar name bound none (get_line_range node))
  else
    CompM.throw (.unsupportedSyntax "TypeVar")

/-- Translation of `Compiler.visit_paramspec`.  On a 3.12 target the source
returns `ast.ParamSpec(name=...)` without inspecting a possible default
(`len(node.children) == 4`). -/
def visit_paramspec (ver : PyVersion) (rec : Visit) (node : CST) : CompM AST := do
  if ver.atLeast 3 13 then do
    let default_value ←
      if node.children.length = 4 then do
        let d ← rec (← getChild node.children 3)
        CompM.pure (some d)
      else
        CompM.pure (none : Option AST)
    let name ← getValue (← getChild node.children 0)
    pure (AST.ParamSpec name default_value (get_line_range node))
  else if ver.atLeast 3 12 then do
    let name ← getValue (← getChild node.children 0)
    pure (AST.ParamSpec name none (get_line_range node))
  else
    CompM.throw (.unsupportedSyntax "ParamSpec")

/-- Translation of `Compiler.visit_typevartuple` (same shape as
`visit_paramspec`). -/
def visit_typevartuple (ver : PyVersion) (rec : Visit) (node : CST) : CompM AST := do
  if ver.atLeast 3 13 then do
    let default_value ←
      if node.children.length = 4 then do
        let d ← rec (← getChild node.children 3)
        CompM.pure (some d)
      else
        CompM.pure (none : Option AST)
    let name ← getValue (← getChild node.children 0)
    pure (AST.TypeVarTuple name default_value (get_line_range node))
  else if ver.atLeast 3 12 then do
    let name ← getValue (← getChild node.children 0)
    pure (AST.TypeVarTuple name none (get_line_range node))
  else
    CompM.throw (.unsupportedSyntax "TypeVarTuple")

/-- Translation of `Compiler.visit_typeparam`. -/
def visit_typeparam (rec : Visit) (node : CST) : CompM AST := do
  rec (← getChild node.children 0)

/-- Translation of `Compiler.visit_file_input` (skips the trailing
`ENDMARKER`; the produced `ast.Module` gets an empty `type_ignores` list,
which the model elides). -/
def visit_file_input (rec : Visit) (node : CST) : CompM AST := do
  let body ← mapVisit rec node.children.dropLast
  pure (AST.Module body (get_line_range node))

/-- Translation of `Compiler.visit_simple_stmt`: a lowered expression child
is wrapped in an `ast.Expr` statement carrying the range of that child alone;
anything else passes through unchanged. -/
def visit_simple_stmt (rec : Visit) (node : CST) : CompM AST := do
  let c0 ← getChild node.children 0
  let val ← rec c0
  if val.isExpr then
    pure (AST.ExprStmt val (get_line_range c0))
  else
    pure val

/-- Translation of `Compiler.visit_NAME`. -/
def visit_NAME (node : CST) : CompM AST := do
  let v ← getValue node
  let ctx ← getCtx
  pure (AST.Name v ctx (get_line_range node))

/-- Translation of `Compiler.visit_NUMBER` (literal evaluation delegated,
see `ConstVal`). -/
def visit_NUMBER (node : CST) : CompM AST := do
  let v ← getValue node
  pure (AST.Constant (ConstVal.literal v) (get_line_range node))

/-- Translation of `Compiler.visit_STRING` (literal evaluation delegated). -/
def visit_STRING (node : CST) : CompM AST := do
  let v ← getValue node
  pure (AST.Constant (ConstVal.literal v) (get_line_range node))

/-- Translation of `Compiler.visit_COLON` (a bare colon subscript becomes a
full open slice). -/
def visit_COLON (node : CST) : CompM AST :=
  CompM.pure (AST.Slice none none none (get_line_range node))

/-- Translation of `Visitor.visit`: resolve the node's symbolic kind and
dispatch to the per-kind routine; an unhandled kind is the
`generic_visit` `NotImplementedError` (the source does the name lookup via
`getattr`; the kind names are in bijection with the numeric types, so the
dispatch is modelled on the numbers directly). -/
def visit_dispatch (ver : PyVersion) (rec : Visit) (fuel : Nat) (node : CST) : CompM AST :=
  if node.type = token.NAME then visit_NAME node
  else if node.type = token.NUMBER then visit_NUMBER node
  else if node.type = token.STRING then visit_STRING node
  else if node.type = token.COLON then visit_COLON node
  else if node.type = syms.typevar then visit_typevar ver rec node
  else if node.type = syms.paramspec then visit_paramspec ver rec node
  else if node.type = syms.typevartuple then visit_typevartuple ver rec node
  else if node.type = syms.typeparam then visit_typeparam rec node
  else if node.type = syms.file_input then visit_file_input rec node
  else if node.type = syms.simple_stmt then visit_simple_stmt rec node
  else if node.type = syms.testlist_gexp then visit_testlist_gexp rec fuel node node
  else if node.type = syms.atom then visit_atom rec fuel node
  else if node.type = syms.expr ∨ node.type = syms.xor_expr ∨ node.type = syms.and_expr ∨
      node.type = syms.shift_expr ∨ node.type = syms.arith_expr ∨ node.type = syms.term then
    visit_expr rec node
  else if node.type = syms.comparison then visit_comparison rec node
  else if node.type = syms.star_expr then visit_star_expr rec node
  else if node.type = syms.not_test then visit_not_test rec node
  else if node.type = syms.and_test then visit_and_test rec node
  else if node.type = syms.or_test then visit_or_test rec node
  else if node.type = syms.test then visit_test rec node
  else if node.type = syms.factor then visit_factor rec node
  else if node.type = syms.power then visit_power rec fuel node
  else if node.type = syms.subscript then visit_subscript rec node
  else if node.type = syms.subscriptlist then visit_subscriptlist rec node
  else CompM.throw (.notImplemented node.type)

/-- The recursive visitor (`Compiler().visit`), tied through fuel. -/
def visit (ver : PyVersion) : Nat → CST → CompM AST
  | 0, _ => CompM.throw .outOfFuel
  | fuel + 1, node => visit_dispatch ver (visit ver fuel) fuel node

end Lib2toast

namespace Lib2toast

/-! Evaluation lemmas for the compiler monad, used to run the embedding
symbolically in the proofs below. -/

@[simp] theorem CompM.run_pure {α : Type} (a : α) (s : ExprContext) :
    (CompM.pure a : CompM α) s = (.ok a, s) := rfl

@[simp] theorem CompM.run_monad_pure {α : Type} (a : α) (s : ExprContext) :
    (Pure.pure a : CompM α) s = (.ok a, s) := rfl

@[simp] theorem CompM.run_bind {α β : Type} (x : CompM α) (f : α → CompM β) (s : ExprContext) :
    (x >>= f) s =
      match x s with
      | (.ok a, s') => f a s'
      | (.error e, s') => (.error e, s') := rfl

@[simp] theorem CompM.run_throw {α : Type} (e : Err) (s : ExprContext) :
    (CompM.throw e : CompM α) s = (.error e, s) := rfl

@[simp] theorem run_getCtx (s : ExprContext) : getCtx s = (.ok s, s) := rfl

@[simp] theorem run_set_expr_context {α : Type} (c : ExprContext) (body : CompM α)
    (s : ExprContext) : set_expr_context c body s = ((body c).1, s) := by
  cases h : body c with
  | mk r s1 => simp [set_expr_context, h]

@[simp] theorem getChild_cons_zero (c : CST) (l : List CST) :
    getChild (c :: l) 0 = CompM.pure c := by
  simp [getChild]

@[simp] theorem getChild_cons_succ (c : CST) (l : List CST) (n : Nat) :
    getChild (c :: l) (n + 1) = getChild l n := by
  simp [getChild]

@[simp] theorem getChild_nil (n : Nat) : getChild [] n = CompM.throw .runtimeError := by
  simp [getChild]

@[simp] theorem getValue_leaf (t : Nat) (v : String) (l c : Nat) :
    getValue (CST.leaf t v l c) = CompM.pure v := rfl

@[simp] theorem visitOpt_some (rec : Visit) (c : CST) : visitOpt rec (some c) = rec c := rfl

@[simp] theorem visitOpt_none (rec : Visit) :
    visitOpt rec none = CompM.throw .runtimeError := rfl

@[simp] theorem assertM_true : assertM true = CompM.pure () := rfl

@[simp] theorem assertM_false : assertM false = CompM.throw .assertionError := rfl

/-- C5: after lowering any sub-tree under a temporarily overridden expression
context, the ambient context equals its value before entry on every exit path:
whatever the body computes — a success or a raised signal, even a body that
itself mangles the context — running `set_expr_context` from state `s` ends in
state `s` again. -/
theorem set_expr_context_restores_context {α : Type} (expr_context : ExprContext)
    (body : CompM α) (s : ExprContext) :
    (set_expr_context expr_context body s).2 = s := by
  cases h : body expr_context with
  | mk r s1 => simp [set_expr_context, h]

/-- C7: `_Consumer.consume` returns the current child and advances the index by
exactly one precisely when a current child exists and either no kind was given
or the child's kind matches; in every other case (kind mismatch, or no current
child) it returns `none` and leaves the consumer untouched.  `consume` is a
total function, so it never raises. -/
theorem consumer_consume_spec (c : Consumer) (typ : Option Nat) :
    (∀ child, c.children[c.index]? = some child →
        (typ = none ∨ typ = some child.type) →
        c.consume typ = (some child, ⟨c.children, c.index + 1⟩)) ∧
    (∀ child, c.children[c.index]? = some child →
        ¬(typ = none ∨ typ = some child.type) →
        c.consume typ = (none, c)) ∧
    (c.children[c.index]? = none → c.consume typ = (none, c)) := by
  refine ⟨?_, ?_, ?_⟩
  · intro child hc hty
    simp [Consumer.consume, hc, hty]
  · intro child hc hty
    simp [Consumer.consume, hc, hty]
  · intro hc
    simp [Consumer.consume, hc]

/-- Witness for C7: a consumer over one `NAME` leaf.  An untyped `consume` at
index 0 returns the leaf and advances; a `COMMA`-typed `consume` reports
absence and stays; `consume` at the end reports absence and stays. -/
theorem consumer_consume_spec_witness :
    (Consumer.consume ⟨[CST.leaf token.NAME "a" 1 0], 0⟩ none =
      (some (CST.leaf token.NAME "a" 1 0), ⟨[CST.leaf token.NAME "a" 1 0], 1⟩)) ∧
    (Consumer.consume ⟨[CST.leaf token.NAME "a" 1 0], 0⟩ (some token.COMMA) =
      (none, ⟨[CST.leaf token.NAME "a" 1 0], 0⟩)) ∧
    (Consumer.consume ⟨[CST.leaf token.NAME "a" 1 0], 1⟩ none =
      (none, ⟨[CST.leaf token.NAME "a" 1 0], 1⟩)) := by
  refine ⟨(consumer_consume_spec _ _).1 _ rfl (Or.inl rfl),
          (consumer_consume_spec _ _).2.1 _ rfl (by decide),
          (consumer_consume_spec _ _).2.2 rfl⟩

theorem findIdx_eq_takeWhile_length_of_mem {l : List Char} {c : Char} (h : c ∈ l) :
    l.findIdx? (fun x => x == c) = some ((l.takeWhile (fun x => x != c)).length) := by
  induction l with
  | nil => simp at h
  | cons a l ih =>
      by_cases hac : a = c
      · subst hac
        simp [List.findIdx?_cons, List.takeWhile_cons]
      · have hc : c ∈ l := by
          rcases List.mem_cons.mp h with h1 | h1
          · exact absurd h1.symm hac
          · exact h1
        simp [List.findIdx?_cons, List.takeWhile_cons, hac, ih hc]

theorem takeWhile_length_lt_of_mem {l : List Char} {c : Char} (h : c ∈ l) :
    (l.takeWhile (fun x => x != c)).length < l.length := by
  induction l with
  | nil => simp at h
  | cons a l ih =>
      by_cases hac : a = c
      · subst hac
        simp [List.takeWhile_cons]
      · have hc : c ∈ l := by
          rcases List.mem_cons.mp h with h1 | h1
          · exact absurd h1.symm hac
          · exact h1
        simpa [List.takeWhile_cons, hac] using Nat.succ_lt_succ (ih hc)

/-- C2: for every leaf, the computed range starts at the leaf's recorded
line and column; the end line is the start line plus the number of embedded
newlines; the end column is start column plus text length when the text has
no newline, and otherwise the number of characters after the last embedded
newline (the length of the text's suffix following its last `'\n'`). -/
theorem get_line_range_for_leaf_spec (t : Nat) (value : String) (lineno column : Nat) :
    get_line_range_for_leaf (CST.leaf t value lineno column) =
      ⟨lineno, column, lineno + value.data.count '\n',
        if value.data.count '\n' = 0 then column + value.length
        else (value.data.reverse.takeWhile (fun ch => ch != '\n')).length⟩ := by
  unfold get_line_range_for_leaf countChar
  by_cases h0 : value.data.count '\n' = 0
  · simp [h0]
  · have hmem : '\n' ∈ value.data := by
      by_contra hn
      exact h0 (List.count_eq_zero.mpr hn)
    have hmemr : '\n' ∈ value.data.reverse := List.mem_reverse.mpr hmem
    have hfind := findIdx_eq_takeWhile_length_of_mem hmemr
    have hlt := takeWhile_length_lt_of_mem hmemr
    rw [List.length_reverse] at hlt
    have hlen : value.length = value.data.length := rfl
    simp only [h0, if_false, rfindChar, hfind, Int.toNat_natCast, LineRange.mk.injEq,
      true_and]
    omega

/-- The version the source's `sys.version_info >= (3, 12)`-but-not-`(3, 13)`
branches run under: a 3.12 target. -/
def ver312 : PyVersion := ⟨3, 12⟩

/-- A `typevar` node declaring a default: `T = int`. -/
def typevar_default_node : CST := CST.nodeOf syms.typevar
  [CST.leaf token.NAME "T" 1 0, CST.leaf token.EQUAL "=" 1 2, CST.leaf token.NAME "int" 1 4]

/-- A `paramspec` node declaring a default: `**P = int` (four children, the
source's own criterion for a present default on 3.13). -/
def paramspec_default_node : CST := CST.nodeOf syms.paramspec
  [CST.leaf token.DOUBLESTAR "**" 1 0, CST.leaf token.NAME "P" 1 2,
   CST.leaf token.EQUAL "=" 1 4, CST.leaf token.NAME "int" 1 6]

/-- A `typevartuple` node declaring a default: `*Ts = int` (four children). -/
def typevartuple_default_node : CST := CST.nodeOf syms.typevartuple
  [CST.leaf token.STAR "*" 1 0, CST.leaf token.NAME "Ts" 1 1,
   CST.leaf token.EQUAL "=" 1 4, CST.leaf token.NAME "int" 1 6]

/-- C1: evaluation of the three type-parameter lowerings on a 3.12 target with
a declared default.  `visit_typevar` raises the unsupported-syntax signal
naming the default, as the claim requires; but `visit_paramspec` and
`visit_typevartuple` return successfully and silently drop the declared
default (four children, default at index 3, never inspected on the 3.12
path), contradicting the claim that the default is never silently dropped. -/
theorem typeparam_default_gate_eval :
    (visit ver312 2 typevar_default_node ExprContext.Load =
      (.error (.unsupportedSyntax "TypeVar default"), ExprContext.Load)) ∧
    (visit ver312 2 paramspec_default_node ExprContext.Load =
      (.ok (AST.ParamSpec "**" none ⟨1, 0, 1, 9⟩), ExprContext.Load)) ∧
    (visit ver312 2 typevartuple_default_node ExprContext.Load =
      (.ok (AST.TypeVarTuple "*" none ⟨1, 0, 1, 9⟩), ExprContext.Load)) :=
  ⟨rfl, rfl, rfl⟩

end Lib2toast

namespace Lib2toast

/-- C10: for every simple statement whose first child lowers to an expression,
lowering produces an expression-statement node whose source range equals the
range of that first child alone (so a trailing newline child of the statement
node contributes nothing); when the first child lowers to a non-expression,
that lowered value is returned unchanged. -/
theorem visit_simple_stmt_range (ver : PyVersion) (fuel : Nat) (c0 : CST) (rest : List CST)
    (val : AST) (s s1 : ExprContext) (h : visit ver fuel c0 s = (.ok val, s1)) :
    visit ver (fuel + 1) (CST.nodeOf syms.simple_stmt (c0 :: rest)) s =
      (if val.isExpr then (.ok (AST.ExprStmt val (get_line_range c0)), s1)
       else (.ok val, s1)) := by
  show visit_simple_stmt (visit ver fuel) (CST.nodeOf syms.simple_stmt (c0 :: rest)) s = _
  simp only [visit_simple_stmt, CST.children_nodeOf, getChild_cons_zero, CompM.run_bind,
    CompM.run_pure, h]
  cases hv : val.isExpr <;> simp [hv]

/-- Witness for C10: the simple statement `a` followed by its newline token;
the produced `ast.Expr` carries the one-character range of the name child,
which differs from the whole statement node's range (the newline token pushes
that range onto the next line). -/
theorem visit_simple_stmt_range_witness :
    (visit ver312 2 (CST.nodeOf syms.simple_stmt
        [CST.leaf token.NAME "a" 1 0, CST.leaf token.NEWLINE "\n" 1 1]) ExprContext.Load =
      (.ok (AST.ExprStmt (AST.Name "a" ExprContext.Load ⟨1, 0, 1, 1⟩) ⟨1, 0, 1, 1⟩),
        ExprContext.Load)) ∧
    get_line_range (CST.leaf token.NAME "a" 1 0) ≠
      get_line_range (CST.nodeOf syms.simple_stmt
        [CST.leaf token.NAME "a" 1 0, CST.leaf token.NEWLINE "\n" 1 1]) :=
  ⟨(visit_simple_stmt_range ver312 1 (CST.leaf token.NAME "a" 1 0)
      [CST.leaf token.NEWLINE "\n" 1 1] (AST.Name "a" ExprContext.Load ⟨1, 0, 1, 1⟩)
      ExprContext.Load ExprContext.Load rfl).trans rfl,
   by decide⟩

/-- Children of a binary-operator chain node: the first operand followed by
alternating (operator, operand) pairs. -/
def chain_children (c0 : CST) (pairs : List (CST × CST)) : List CST :=
  c0 :: pairs.flatMap (fun p => [p.1, p.2])

/-- The left fold the claim describes: starting from the first operand's
lowering, each step wraps the accumulator as the left child of a new `BinOp`
whose right child is the next operand's lowering and whose range unifies the
chain's first operand's range (start) with that operand's range (end).  By
construction the result is left-nested: the accumulator only ever appears in
the `left` field. -/
def left_fold_binop (begin_range : LineRange) : AST → List (BinOpKind × CST × AST) → AST
  | acc, [] => acc
  | acc, (op, child, v) :: rest =>
      left_fold_binop begin_range
        (AST.BinOp acc op v (unify_line_ranges begin_range (get_line_range child))) rest

/-- Sequential visitation: `VisitSeq f cs s vs s2` states that visiting the
children `cs` in order from context state `s` succeeds with the results `vs`,
ending in state `s2`. -/
inductive VisitSeq (f : Visit) : List CST → ExprContext → List AST → ExprContext → Prop
  | nil (s : ExprContext) : VisitSeq f [] s [] s
  | cons {c : CST} {cs : List CST} {a : AST} {vs : List AST} {s s1 s2 : ExprContext} :
      f c s = (.ok a, s1) → VisitSeq f cs s1 vs s2 → VisitSeq f (c :: cs) s (a :: vs) s2

theorem visit_expr_loop_spec (f : Visit) (begin_range : LineRange) :
    ∀ (pairs : List (CST × CST)) (ops : List BinOpKind) (acc : AST) (vs : List AST)
      (s s2 : ExprContext),
      pairs.map (fun p => TOKEN_TYPE_TO_BINOP p.1.type) = ops.map some →
      VisitSeq f (pairs.map Prod.snd) s vs s2 →
      visit_expr_loop f begin_range acc (pairs.flatMap (fun p => [p.1, p.2])) s =
        (.ok (left_fold_binop begin_range acc
          (List.zipWith (fun op pv => (op, pv.1.2, pv.2)) ops (pairs.zip vs))), s2) := by
  intro pairs
  induction pairs with
  | nil =>
      intro ops acc vs s s2 hops hseq
      cases hseq
      cases ops with
      | nil => simp [visit_expr_loop, left_fold_binop]
      | cons o os => simp at hops
  | cons p pairs ih =>
      intro ops acc vs s s2 hops hseq
      obtain ⟨o, c⟩ := p
      cases ops with
      | nil => simp at hops
      | cons op ops =>
          simp only [List.map_cons, List.cons.injEq] at hops
          obtain ⟨hop, hops'⟩ := hops
          simp only [List.map_cons] at hseq
          cases hseq with
          | cons hv hseq' =>
              simp only [List.flatMap_cons, List.cons_append, List.nil_append,
                visit_expr_loop, hop, CompM.run_bind, hv, List.zip_cons_cons,
                List.zipWith_cons_cons, left_fold_binop]
              exact ih ops _ _ _ _ hops' hseq'

/-- C3: for every binary-operator chain node (`expr`, `xor_expr`, `and_expr`,
`shift_expr`, `arith_expr`, `term`) with alternating operand/operator children,
lowering left-folds the chain: the result is `left_fold_binop` of the operand
lowerings, which nests strictly to the left (`(a op1 b) op2 c`, never
`a op2 (b op2 c)`), and each fold step's range unifies the chain's first
operand's start with the new right operand's end. -/
theorem binop_chain_left_nested (ver : PyVersion) (fuel : Nat) (t : Nat)
    (ht : t = syms.expr ∨ t = syms.xor_expr ∨ t = syms.and_expr ∨ t = syms.shift_expr ∨
          t = syms.arith_expr ∨ t = syms.term)
    (c0 : CST) (pairs : List (CST × CST)) (ops : List BinOpKind) (v0 : AST) (vs : List AST)
    (s s2 : ExprContext)
    (hops : pairs.map (fun p => TOKEN_TYPE_TO_BINOP p.1.type) = ops.map some)
    (hseq : VisitSeq (visit ver fuel) (c0 :: pairs.map Prod.snd) s (v0 :: vs) s2) :
    visit ver (fuel + 1) (CST.nodeOf t (chain_children c0 pairs)) s =
      (.ok (left_fold_binop (get_line_range c0) v0
        (List.zipWith (fun op pv => (op, pv.1.2, pv.2)) ops (pairs.zip vs))), s2) := by
  cases hseq with
  | cons hv0 hseq' =>
    have hdisp : visit ver (fuel + 1) (CST.nodeOf t (chain_children c0 pairs)) =
        visit_expr (visit ver fuel) (CST.nodeOf t (chain_children c0 pairs)) := by
      rcases ht with h | h | h | h | h | h <;> subst h <;> rfl
    rw [hdisp]
    have hchildren : (CST.nodeOf t (chain_children c0 pairs)).children =
        c0 :: pairs.flatMap (fun p => [p.1, p.2]) := by
      simp [chain_children]
    simp only [visit_expr, hchildren, getChild_cons_zero, CompM.run_bind, CompM.run_pure,
      hv0, List.drop_succ_cons, List.drop_zero]
    exact visit_expr_loop_spec (visit ver fuel) (get_line_range c0) pairs ops v0 vs _ _
      hops hseq'

/-- Witness for C3: lowering the chain `1 + 2 - 3` produces the left-nested
`BinOp(BinOp(1, Add, 2), Sub, 3)`; the inner node's range runs from the first
operand's start to the second operand's end, the outer node's range to the
third operand's end. -/
theorem binop_chain_left_nested_witness :
    visit ver312 2 (CST.nodeOf syms.arith_expr
      [CST.leaf token.NUMBER "1" 1 0, CST.leaf token.PLUS "+" 1 2,
       CST.leaf token.NUMBER "2" 1 4, CST.leaf token.MINUS "-" 1 6,
       CST.leaf token.NUMBER "3" 1 8]) ExprContext.Load =
      (.ok (AST.BinOp
        (AST.BinOp (AST.Constant (.literal "1") ⟨1, 0, 1, 1⟩) .Add
          (AST.Constant (.literal "2") ⟨1, 4, 1, 5⟩) ⟨1, 0, 1, 5⟩)
        .Sub (AST.Constant (.literal "3") ⟨1, 8, 1, 9⟩) ⟨1, 0, 1, 9⟩), ExprContext.Load) :=
  (binop_chain_left_nested ver312 1 syms.arith_expr
    (Or.inr (Or.inr (Or.inr (Or.inr (Or.inl rfl)))))
    (CST.leaf token.NUMBER "1" 1 0)
    [(CST.leaf token.PLUS "+" 1 2, CST.leaf token.NUMBER "2" 1 4),
     (CST.leaf token.MINUS "-" 1 6, CST.leaf token.NUMBER "3" 1 8)]
    [.Add, .Sub]
    (AST.Constant (.literal "1") ⟨1, 0, 1, 1⟩)
    [AST.Constant (.literal "2") ⟨1, 4, 1, 5⟩, AST.Constant (.literal "3") ⟨1, 8, 1, 9⟩]
    ExprContext.Load ExprContext.Load rfl
    (VisitSeq.cons rfl (VisitSeq.cons rfl (VisitSeq.cons rfl
      (VisitSeq.nil ExprContext.Load))))).trans rfl

end Lib2toast

namespace Lib2toast

theorem TOKEN_TYPE_TO_COMPARE_OP_ne_NAME {t : Nat} {k : CmpOpKind}
    (h : TOKEN_TYPE_TO_COMPARE_OP t = some k) : t ≠ token.NAME := by
  intro ht
  rw [ht, show TOKEN_TYPE_TO_COMPARE_OP token.NAME = none from rfl] at h
  exact Option.noConfusion h

/-- The operator-resolution relation of the comparison claim: a symbolic
operator leaf resolves by its token kind through the compare-operator table;
the keywords `is` and `in` resolve by their text; and the two-token composite
operator nodes `is not` / `not in` resolve by inspecting both sub-tokens'
texts (the composite node's own grammar symbol is irrelevant, as long as it is
a node and not a `NAME` leaf). -/
inductive ResolvesCmpOp : CST → CmpOpKind → Prop
  | symbolic {opNode : CST} {k : CmpOpKind} :
      opNode.isLeaf = true → TOKEN_TYPE_TO_COMPARE_OP opNode.type = some k →
      ResolvesCmpOp opNode k
  | is_keyword (l c : Nat) :
      ResolvesCmpOp (CST.leaf token.NAME "is" l c) CmpOpKind.Is
  | in_keyword (l c : Nat) :
      ResolvesCmpOp (CST.leaf token.NAME "in" l c) CmpOpKind.In
  | is_not (t t1 t2 l1 c1 l2 c2 : Nat) :
      t ≠ token.NAME →
      ResolvesCmpOp
        (CST.nodeOf t [CST.leaf t1 "is" l1 c1, CST.leaf t2 "not" l2 c2]) CmpOpKind.IsNot
  | not_in (t t1 t2 l1 c1 l2 c2 : Nat) :
      t ≠ token.NAME →
      ResolvesCmpOp
        (CST.nodeOf t [CST.leaf t1 "not" l1 c1, CST.leaf t2 "in" l2 c2]) CmpOpKind.NotIn

theorem comparison_loop_spec (f : Visit) :
    ∀ (pairs : List (CST × CST)) (ops : List CmpOpKind) (ops0 : List CmpOpKind)
      (comparators0 : List AST) (vs : List AST) (s s2 : ExprContext),
      List.Forall₂ ResolvesCmpOp (pairs.map Prod.fst) ops →
      VisitSeq f (pairs.map Prod.snd) s vs s2 →
      (∀ v ∈ vs, v.isExpr = true) →
      comparison_loop f (pairs.flatMap (fun p => [p.1, p.2])) ops0 comparators0 s =
        (.ok (ops0 ++ ops, comparators0 ++ vs), s2) := by
  intro pairs
  induction pairs with
  | nil =>
      intro ops ops0 comparators0 vs s s2 hres hseq hexpr
      cases hseq
      cases hres
      simp [comparison_loop]
  | cons p pairs ih =>
      intro ops ops0 comparators0 vs s s2 hres hseq hexpr
      obtain ⟨o, c⟩ := p
      simp only [List.map_cons] at hres hseq
      cases hres with
      | cons hr hres' =>
        cases hseq with
        | cons hv hseq' =>
          rename_i k ops' a vs' s1
          have hexpr' : ∀ v ∈ vs', v.isExpr = true := by
            intro v hvmem
            exact hexpr v (List.mem_cons_of_mem _ hvmem)
          have ha : a.isExpr = true := hexpr a (List.mem_cons_self a vs')
          have hstep :
              comparison_loop f (((o, c) :: pairs).flatMap (fun p => [p.1, p.2]))
                  ops0 comparators0 s =
                comparison_loop f (pairs.flatMap (fun p => [p.1, p.2]))
                  (ops0 ++ [k]) (comparators0 ++ [a]) s1 := by
            cases hr with
            | symbolic hleaf htab =>
                have hne := TOKEN_TYPE_TO_COMPARE_OP_ne_NAME htab
                simp [comparison_loop, hne, hleaf, htab, hv, ha, List.flatMap]
            | is_keyword l cc =>
                simp [comparison_loop, NAME_TO_COMPARE_OP, hv, ha, List.flatMap]
            | in_keyword l cc =>
                simp [comparison_loop, NAME_TO_COMPARE_OP, hv, ha, List.flatMap]
            | is_not t t1 t2 l1 c1 l2 c2 hne =>
                simp [comparison_loop, hne, hv, ha, List.flatMap]
            | not_in t t1 t2 l1 c1 l2 c2 hne =>
                simp [comparison_loop, hne, hv, ha, List.flatMap]
          rw [hstep, ih ops' (ops0 ++ [k]) (comparators0 ++ [a]) vs' s1 s2 hres' hseq' hexpr']
          simp

/-- C8: for every comparison-chain node holding one left operand followed by
repeated (operator, operand) pairs whose operators resolve per
`ResolvesCmpOp` (symbolic operators by token kind, `is`/`in` by keyword text,
the composites `is not`/`not in` by inspecting both sub-tokens), lowering
produces a single `Compare` node carrying the left operand's lowering and the
two parallel lists of operators and comparators — never nested binary
comparisons. -/
theorem comparison_chain_spec (ver : PyVersion) (fuel : Nat) (c0 : CST)
    (pairs : List (CST × CST)) (ops : List CmpOpKind) (v0 : AST) (vs : List AST)
    (s s2 : ExprContext)
    (hres : List.Forall₂ ResolvesCmpOp (pairs.map Prod.fst) ops)
    (hseq : VisitSeq (visit ver fuel) (c0 :: pairs.map Prod.snd) s (v0 :: vs) s2)
    (hexpr : ∀ v ∈ vs, v.isExpr = true) :
    visit ver (fuel + 1) (CST.nodeOf syms.comparison (chain_children c0 pairs)) s =
      (.ok (AST.Compare v0 ops vs
        (get_line_range (CST.nodeOf syms.comparison (chain_children c0 pairs)))), s2) := by
  cases hseq with
  | cons hv0 hseq' =>
    show visit_comparison (visit ver fuel) (CST.nodeOf syms.comparison
      (chain_children c0 pairs)) s = _
    have hchildren : (CST.nodeOf syms.comparison (chain_children c0 pairs)).children =
        c0 :: pairs.flatMap (fun p => [p.1, p.2]) := by
      simp [chain_children]
    simp only [visit_comparison, hchildren, getChild_cons_zero, CompM.run_bind,
      CompM.run_pure, hv0, List.drop_succ_cons, List.drop_zero]
    rw [comparison_loop_spec (visit ver fuel) pairs ops [] [] vs _ _ hres hseq' hexpr]
    simp

/-- Witness for C8: lowering `a < b is not c` produces one `Compare` with
parallel lists `[Lt, IsNot]` and `[b, c]`; `<` is resolved by token kind and
`is not` by inspecting its two sub-tokens. -/
theorem comparison_chain_spec_witness :
    visit ver312 2 (CST.nodeOf syms.comparison
      [CST.leaf token.NAME "a" 1 0, CST.leaf token.LESS "<" 1 2,
       CST.leaf token.NAME "b" 1 4,
       CST.nodeOf 300 [CST.leaf token.NAME "is" 1 6, CST.leaf token.NAME "not" 1 9],
       CST.leaf token.NAME "c" 1 13]) ExprContext.Load =
      (.ok (AST.Compare (AST.Name "a" ExprContext.Load ⟨1, 0, 1, 1⟩)
        [CmpOpKind.Lt, CmpOpKind.IsNot]
        [AST.Name "b" ExprContext.Load ⟨1, 4, 1, 5⟩,
         AST.Name "c" ExprContext.Load ⟨1, 13, 1, 14⟩]
        ⟨1, 0, 1, 14⟩), ExprContext.Load) :=
  (comparison_chain_spec ver312 1 (CST.leaf token.NAME "a" 1 0)
    [(CST.leaf token.LESS "<" 1 2, CST.leaf token.NAME "b" 1 4),
     (CST.nodeOf 300 [CST.leaf token.NAME "is" 1 6, CST.leaf token.NAME "not" 1 9],
      CST.leaf token.NAME "c" 1 13)]
    [CmpOpKind.Lt, CmpOpKind.IsNot]
    (AST.Name "a" ExprContext.Load ⟨1, 0, 1, 1⟩)
    [AST.Name "b" ExprContext.Load ⟨1, 4, 1, 5⟩, AST.Name "c" ExprContext.Load ⟨1, 13, 1, 14⟩]
    ExprContext.Load ExprContext.Load
    (List.Forall₂.cons (ResolvesCmpOp.symbolic rfl rfl)
      (List.Forall₂.cons (ResolvesCmpOp.is_not 300 token.NAME token.NAME 1 6 1 9 (by decide))
        List.Forall₂.nil))
    (VisitSeq.cons rfl (VisitSeq.cons rfl (VisitSeq.cons rfl
      (VisitSeq.nil ExprContext.Load))))
    (by decide)).trans rfl

end Lib2toast

namespace Lib2toast

/-- C6: for every assignment-expression (walrus) lowering and for every
`name = expr` keyword argument in a call argument list, a left-hand side that
lowers (under Store context) to anything but a bare `Name` raises the
distinguishable unsupported-syntax signal naming the construct, with the
ambient context restored; when it lowers to a bare `Name`, no such signal is
raised from this check — the result is exactly the continuation that lowers
the right-hand side. -/
theorem named_and_keyword_target_gate (rec : Visit) (fuel : Nat) (c0 c2 : Option CST)
    (a0 eqLeaf a2 parent : CST) (targ : Nat) (t : AST) (id : String) (nctx : ExprContext)
    (nr : LineRange) (s sx sy : ExprContext) :
    ((visitOpt rec c0) ExprContext.Store = (.ok t, sx) → t.isName = false →
      compile_named_expr rec c0 c2 s =
        (.error (.unsupportedSyntax "walrus target must be a name"), s)) ∧
    ((visitOpt rec c0) ExprContext.Store = (.ok t, sx) → t.isName = true →
      compile_named_expr rec c0 c2 s =
        (match (visitOpt rec c2) s with
         | (.ok value, s1) =>
             (.ok (AST.NamedExpr t value (unify_line_ranges (glrOpt c0) (glrOpt c2))), s1)
         | (.error e, s1) => (.error e, s1))) ∧
    (rec a0 ExprContext.Store = (.ok t, sy) → t.isName = false →
      targ ≠ syms.arglist → a0.type ≠ token.STAR → a0.type ≠ token.DOUBLESTAR →
      eqLeaf.type = token.EQUAL →
      compile_arglist rec fuel (CST.nodeOf targ [a0, eqLeaf, a2]) parent s =
        (.error (.unsupportedSyntax "keyword argument target must be a name"), s)) ∧
    (rec a0 ExprContext.Store = (.ok (AST.Name id nctx nr), sy) →
      targ ≠ syms.arglist → a0.type ≠ token.STAR → a0.type ≠ token.DOUBLESTAR →
      eqLeaf.type = token.EQUAL →
      compile_arglist rec fuel (CST.nodeOf targ [a0, eqLeaf, a2]) parent s =
        (match (rec a2) s with
         | (.ok value, s1) =>
             (.ok (([] : List AST), [KeywordNode.mk (some id) value
               (get_line_range (CST.nodeOf targ [a0, eqLeaf, a2]))]), s1)
         | (.error e, s1) => (.error e, s1))) := by
  refine ⟨?_, ?_, ?_, ?_⟩
  · intro h0 hname
    simp [compile_named_expr, h0, hname]
  · intro h0 hname
    simp only [compile_named_expr, CompM.run_bind, run_set_expr_context, h0, hname,
      Bool.not_true, Bool.false_eq_true, if_false]
    cases hc2 : visitOpt rec c2 s with
    | mk r s1 =>
        cases r <;> simp
  · intro h0 hname htarg hstar hdstar heq
    simp +decide [compile_arglist, arglist_loop, htarg, hstar, hdstar, heq, h0, hname]
  · intro h0 htarg hstar hdstar heq
    cases hc2 : rec a2 s with
    | mk r s1 =>
        cases r <;>
          simp +decide [compile_arglist, arglist_loop, AST.isName, htarg, hstar, hdstar,
            heq, h0, hc2]

/-- Witness for C6: with the recursive visitor at fuel 1, a walrus whose
target is the number literal `1` raises the walrus signal, one whose target is
the name `x` lowers to a `NamedExpr`; a keyword argument `1 = a` raises the
keyword-target signal, and `x = a` builds the keyword. -/
theorem named_and_keyword_target_gate_witness :
    (compile_named_expr (visit ver312 1) (some (CST.leaf token.NUMBER "1" 1 0))
        (some (CST.leaf token.NAME "a" 1 5)) ExprContext.Load =
      (.error (.unsupportedSyntax "walrus target must be a name"), ExprContext.Load)) ∧
    (compile_named_expr (visit ver312 1) (some (CST.leaf token.NAME "x" 1 0))
        (some (CST.leaf token.NAME "a" 1 5)) ExprContext.Load =
      (.ok (AST.NamedExpr (AST.Name "x" ExprContext.Store ⟨1, 0, 1, 1⟩)
        (AST.Name "a" ExprContext.Load ⟨1, 5, 1, 6⟩) ⟨1, 0, 1, 6⟩), ExprContext.Load)) ∧
    (compile_arglist (visit ver312 1) 1 (CST.nodeOf syms.argument
        [CST.leaf token.NUMBER "1" 1 0, CST.leaf token.EQUAL "=" 1 1,
         CST.leaf token.NAME "a" 1 2]) (CST.leaf token.NAME "a" 1 2) ExprContext.Load =
      (.error (.unsupportedSyntax "keyword argument target must be a name"),
        ExprContext.Load)) ∧
    (compile_arglist (visit ver312 1) 1 (CST.nodeOf syms.argument
        [CST.leaf token.NAME "x" 1 0, CST.leaf token.EQUAL "=" 1 1,
         CST.leaf token.NAME "a" 1 2]) (CST.leaf token.NAME "a" 1 2) ExprContext.Load =
      (.ok ([], [KeywordNode.mk (some "x") (AST.Name "a" ExprContext.Load ⟨1, 2, 1, 3⟩)
        ⟨1, 0, 1, 3⟩]), ExprContext.Load)) := by
  refine ⟨?_, ?_, ?_, ?_⟩
  · exact (named_and_keyword_target_gate (visit ver312 1) 1
      (some (CST.leaf token.NUMBER "1" 1 0)) (some (CST.leaf token.NAME "a" 1 5))
      (CST.leaf token.NAME "x" 1 0) (CST.leaf token.EQUAL "=" 1 1)
      (CST.leaf token.NAME "a" 1 2) (CST.leaf token.NAME "a" 1 2) syms.argument
      (AST.Constant (.literal "1") ⟨1, 0, 1, 1⟩) "x" ExprContext.Store ⟨1, 0, 1, 1⟩
      ExprContext.Load ExprContext.Store ExprContext.Store).1 rfl rfl
  · exact ((named_and_keyword_target_gate (visit ver312 1) 1
      (some (CST.leaf token.NAME "x" 1 0)) (some (CST.leaf token.NAME "a" 1 5))
      (CST.leaf token.NAME "x" 1 0) (CST.leaf token.EQUAL "=" 1 1)
      (CST.leaf token.NAME "a" 1 2) (CST.leaf token.NAME "a" 1 2) syms.argument
      (AST.Name "x" ExprContext.Store ⟨1, 0, 1, 1⟩) "x" ExprContext.Store ⟨1, 0, 1, 1⟩
      ExprContext.Load ExprContext.Store ExprContext.Store).2.1 rfl rfl).trans rfl
  · exact (named_and_keyword_target_gate (visit ver312 1) 1 none none
      (CST.leaf token.NUMBER "1" 1 0) (CST.leaf token.EQUAL "=" 1 1)
      (CST.leaf token.NAME "a" 1 2) (CST.leaf token.NAME "a" 1 2) syms.argument
      (AST.Constant (.literal "1") ⟨1, 0, 1, 1⟩) "x" ExprContext.Store ⟨1, 0, 1, 1⟩
      ExprContext.Load ExprContext.Store ExprContext.Store).2.2.1 rfl rfl
      (by decide) (by decide) (by decide) rfl
  · exact ((named_and_keyword_target_gate (visit ver312 1) 1 none none
      (CST.leaf token.NAME "x" 1 0) (CST.leaf token.EQUAL "=" 1 1)
      (CST.leaf token.NAME "a" 1 2) (CST.leaf token.NAME "a" 1 2) syms.argument
      (AST.Name "x" ExprContext.Store ⟨1, 0, 1, 1⟩) "x" ExprContext.Store ⟨1, 0, 1, 1⟩
      ExprContext.Load ExprContext.Store ExprContext.Store).2.2.2 rfl
      (by decide) (by decide) (by decide) rfl).trans rfl

end Lib2toast

namespace Lib2toast

/-- Entering the dict/set-maker loop: a brace atom whose inner child is a
`dictsetmaker` hands control to `dictset_loop` over that child's children. -/
theorem visit_atom_brace (rec : Visit) (fuel : Nat) (lb inner rb : CST)
    (hlb : lb.type = token.LBRACE) (hinner : inner.type = syms.dictsetmaker) :
    visit_atom rec fuel (CST.nodeOf syms.atom [lb, inner, rb]) =
      dictset_loop rec fuel (CST.nodeOf syms.atom [lb, inner, rb])
        inner.children.length ⟨inner.children, 0⟩ false [] [] [] := by
  funext s
  simp [visit_atom, hlb, hinner, token.LPAR, token.LSQB, token.LBRACE, syms.dictsetmaker]

/-- C9: a `*expr` starred positional argument in a call argument list is
constructed with `Load` context regardless of the ambient expression context
(the conclusion holds for every ambient state `s`), whereas a starred element
lowered inside a brace collection literal and a standalone `star_expr` node
both take the ambient expression context in effect when they are built. -/
theorem starred_context_spec (ver : PyVersion) (fuel : Nat) (starLeaf e x se lb rb : CST)
    (targ : Nat) (parent : CST) (v vx : AST) (s s1 : ExprContext) :
    (starLeaf.type = token.STAR → targ ≠ syms.arglist →
      visit ver fuel e s = (.ok v, s1) →
      compile_arglist (visit ver fuel) fuel (CST.nodeOf targ [starLeaf, e]) parent s =
        (.ok ([AST.Starred v ExprContext.Load
          (get_line_range (CST.nodeOf targ [starLeaf, e]))], []), s1)) ∧
    (visit ver fuel e s = (.ok v, s1) →
      visit ver (fuel + 1) (CST.nodeOf syms.star_expr [starLeaf, e]) s =
        (.ok (AST.Starred v s1 (get_line_range (CST.nodeOf syms.star_expr [starLeaf, e]))),
          s1)) ∧
    (se.type = syms.star_expr → lb.type = token.LBRACE →
      visit ver fuel x s = (.ok vx, s1) →
      visit ver (fuel + 1) (CST.nodeOf syms.atom
          [lb, CST.nodeOf syms.dictsetmaker [se, x], rb]) s =
        (.ok (AST.SetExpr [AST.Starred vx s1 (get_line_range se)] s1
          (get_line_range (CST.nodeOf syms.atom
            [lb, CST.nodeOf syms.dictsetmaker [se, x], rb]))), s1)) := by
  refine ⟨?_, ?_, ?_⟩
  · intro hstar htarg hv
    simp +decide [compile_arglist, arglist_loop, htarg, hstar, hv]
  · intro hv
    show visit_star_expr (visit ver fuel) (CST.nodeOf syms.star_expr [starLeaf, e]) s = _
    simp [visit_star_expr, hv]
  · intro hse hlb hv
    have hc1 : Consumer.consume ⟨[se, x], 0⟩ (some token.DOUBLESTAR) =
        (none, ⟨[se, x], 0⟩) := by
      simp [Consumer.consume, hse, token.DOUBLESTAR, syms.star_expr]
    have hc2 : Consumer.consume ⟨[se, x], 0⟩ (some syms.star_expr) =
        (some se, ⟨[se, x], 1⟩) := by
      simp [Consumer.consume, hse]
    have hc3 : Consumer.consume ⟨[se, x], 1⟩ (none : Option Nat) =
        (some x, ⟨[se, x], 2⟩) := by
      simp [Consumer.consume]
    have hstep : dictset_step (visit ver fuel) fuel (CST.nodeOf syms.atom
        [lb, CST.nodeOf syms.dictsetmaker [se, x], rb]) ⟨[se, x], 0⟩ false [] [] [] s =
        (.ok (.inr ⟨⟨[se, x], 2⟩, false, [], [],
          [AST.Starred vx s1 (get_line_range se)]⟩), s1) := by
      simp [dictset_step, hc1, hc2, hc3, hv]
    show visit_atom (visit ver fuel) fuel (CST.nodeOf syms.atom
      [lb, CST.nodeOf syms.dictsetmaker [se, x], rb]) s = _
    rw [visit_atom_brace (visit ver fuel) fuel lb (CST.nodeOf syms.dictsetmaker [se, x])
      rb hlb rfl]
    simp [dictset_loop, Consumer.done, hstep, dictset_finish]

/-- Witness for C9: with ambient context `Store`, `*a` as a call argument
still gets `Load` context, while the standalone `star_expr` for `*a` and the
starred element of `{*a, b}` (a set literal) pick up the ambient `Store`. -/
theorem starred_context_spec_witness :
    (compile_arglist (visit ver312 1) 1
        (CST.nodeOf syms.argument [CST.leaf token.STAR "*" 1 2, CST.leaf token.NAME "a" 1 3])
        (CST.leaf token.NAME "f" 1 0) ExprContext.Store =
      (.ok ([AST.Starred (AST.Name "a" ExprContext.Store ⟨1, 3, 1, 4⟩) ExprContext.Load
        ⟨1, 2, 1, 4⟩], []), ExprContext.Store)) ∧
    (visit ver312 2 (CST.nodeOf syms.star_expr
        [CST.leaf token.STAR "*" 1 2, CST.leaf token.NAME "a" 1 3]) ExprContext.Store =
      (.ok (AST.Starred (AST.Name "a" ExprContext.Store ⟨1, 3, 1, 4⟩) ExprContext.Store
        ⟨1, 2, 1, 4⟩), ExprContext.Store)) ∧
    (visit ver312 2 (CST.nodeOf syms.atom
        [CST.leaf token.LBRACE "\x7b" 1 0,
         CST.nodeOf syms.dictsetmaker
           [CST.nodeOf syms.star_expr
             [CST.leaf token.STAR "*" 1 1, CST.leaf token.NAME "a" 1 2],
            CST.leaf token.NAME "b" 1 4],
         CST.leaf token.RBRACE "\x7d" 1 5]) ExprContext.Store =
      (.ok (AST.SetExpr [AST.Starred (AST.Name "b" ExprContext.Store ⟨1, 4, 1, 5⟩)
          ExprContext.Store ⟨1, 1, 1, 3⟩] ExprContext.Store ⟨1, 0, 1, 6⟩),
        ExprContext.Store)) := by
  refine ⟨?_, ?_, ?_⟩
  · exact ((starred_context_spec ver312 1 (CST.leaf token.STAR "*" 1 2)
      (CST.leaf token.NAME "a" 1 3) (CST.leaf token.NAME "a" 1 3)
      (CST.leaf token.NAME "a" 1 3) (CST.leaf token.NAME "a" 1 3)
      (CST.leaf token.NAME "a" 1 3) syms.argument (CST.leaf token.NAME "f" 1 0)
      (AST.Name "a" ExprContext.Store ⟨1, 3, 1, 4⟩)
      (AST.Name "a" ExprContext.Store ⟨1, 3, 1, 4⟩)
      ExprContext.Store ExprContext.Store).1 rfl (by decide) rfl).trans rfl
  · exact ((starred_context_spec ver312 1 (CST.leaf token.STAR "*" 1 2)
      (CST.leaf token.NAME "a" 1 3) (CST.leaf token.NAME "a" 1 3)
      (CST.leaf token.NAME "a" 1 3) (CST.leaf token.NAME "a" 1 3)
      (CST.leaf token.NAME "a" 1 3) syms.argument (CST.leaf token.NAME "f" 1 0)
      (AST.Name "a" ExprContext.Store ⟨1, 3, 1, 4⟩)
      (AST.Name "a" ExprContext.Store ⟨1, 3, 1, 4⟩)
      ExprContext.Store ExprContext.Store).2.1 rfl).trans rfl
  · exact ((starred_context_spec ver312 1 (CST.leaf token.STAR "*" 1 1)
      (CST.leaf token.NAME "a" 1 2) (CST.leaf token.NAME "b" 1 4)
      (CST.nodeOf syms.star_expr [CST.leaf token.STAR "*" 1 1, CST.leaf token.NAME "a" 1 2])
      (CST.leaf token.LBRACE "\x7b" 1 0) (CST.leaf token.RBRACE "\x7d" 1 5)
      syms.argument (CST.leaf token.NAME "f" 1 0)
      (AST.Name "b" ExprContext.Store ⟨1, 4, 1, 5⟩)
      (AST.Name "b" ExprContext.Store ⟨1, 4, 1, 5⟩)
      ExprContext.Store ExprContext.Store).2.2 rfl rfl rfl).trans rfl

end Lib2toast

namespace Lib2toast

/-- C4: for every brace collection literal over a dict/set-maker, a trailing
comprehension clause encountered after exactly one accumulated element (or
exactly one key/value pair) converts the whole literal into the matching
comprehension variant (`SetComp`, resp. `DictComp`); a comprehension clause
encountered after two accumulated elements (or two key/value pairs) makes
lowering fail with a malformed-tree invariant violation (a failed `assert`),
never a silently produced plain literal. -/
theorem brace_comprehension_threshold (ver : PyVersion) (fuel : Nat)
    (lb rb e1 e2 w colonL commaL cf : CST) (a1 a2 wv1 wv2 : AST)
    (comps : List ComprehensionNode) (s s1 s2 s3 s4 s5 : ExprContext)
    (hlb : lb.type = token.LBRACE)
    (he1d : e1.type ≠ token.DOUBLESTAR) (he1s : e1.type ≠ syms.star_expr)
    (he2d : e2.type ≠ token.DOUBLESTAR) (he2s : e2.type ≠ syms.star_expr)
    (hcol : colonL.type = token.COLON) (hcomma : commaL.type = token.COMMA)
    (hcf : cf.type = syms.comp_for) :
    (visit ver fuel e1 s = (.ok a1, s1) →
      compile_comprehension (visit ver fuel) fuel cf s1 = (.ok comps, s2) →
      visit ver (fuel + 1)
          (CST.nodeOf syms.atom [lb, CST.nodeOf syms.dictsetmaker [e1, cf], rb]) s =
        (.ok (AST.SetComp a1 comps (get_line_range
          (CST.nodeOf syms.atom [lb, CST.nodeOf syms.dictsetmaker [e1, cf], rb]))), s2)) ∧
    (visit ver fuel e1 s = (.ok a1, s1) →
      visit ver fuel w s1 = (.ok wv1, s2) →
      compile_comprehension (visit ver fuel) fuel cf s2 = (.ok comps, s3) →
      visit ver (fuel + 1)
          (CST.nodeOf syms.atom
            [lb, CST.nodeOf syms.dictsetmaker [e1, colonL, w, cf], rb]) s =
        (.ok (AST.DictComp (some a1) wv1 comps (get_line_range
          (CST.nodeOf syms.atom
            [lb, CST.nodeOf syms.dictsetmaker [e1, colonL, w, cf], rb]))), s3)) ∧
    (visit ver fuel e1 s = (.ok a1, s1) →
      visit ver fuel e2 s1 = (.ok a2, s2) →
      compile_comprehension (visit ver fuel) fuel cf s2 = (.ok comps, s3) →
      visit ver (fuel + 1)
          (CST.nodeOf syms.atom
            [lb, CST.nodeOf syms.dictsetmaker [e1, commaL, e2, cf], rb]) s =
        (.error .assertionError, s3)) ∧
    (visit ver fuel e1 s = (.ok a1, s1) →
      visit ver fuel w s1 = (.ok wv1, s2) →
      visit ver fuel e2 s2 = (.ok a2, s3) →
      visit ver fuel w s3 = (.ok wv2, s4) →
      compile_comprehension (visit ver fuel) fuel cf s4 = (.ok comps, s5) →
      visit ver (fuel + 1)
          (CST.nodeOf syms.atom
            [lb, CST.nodeOf syms.dictsetmaker [e1, colonL, w, commaL, e2, colonL, w, cf],
             rb]) s =
        (.error .assertionError, s5)) := by
  have he1d' : token.DOUBLESTAR ≠ e1.type := Ne.symm he1d
  have he1s' : syms.star_expr ≠ e1.type := Ne.symm he1s
  have he2d' : token.DOUBLESTAR ≠ e2.type := Ne.symm he2d
  have he2s' : syms.star_expr ≠ e2.type := Ne.symm he2s
  have hne1 : token.COLONEQUAL ≠ syms.comp_for := by decide
  have hne2 : token.COLON ≠ syms.comp_for := by decide
  have hne3 : token.COLONEQUAL ≠ token.COLON := by decide
  have hne4 : token.COLONEQUAL ≠ token.COMMA := by decide
  have hne5 : token.COLON ≠ token.COMMA := by decide
  have hne6 : syms.comp_for ≠ token.COMMA := by decide
  have hdd : token.DOUBLESTAR ≠ syms.comp_for := by decide
  have hds : syms.star_expr ≠ syms.comp_for := by decide
  refine ⟨?_, ?_, ?_, ?_⟩
  · intro hv1 hcomp
    have hstep : dictset_step (visit ver fuel) fuel
        (CST.nodeOf syms.atom [lb, CST.nodeOf syms.dictsetmaker [e1, cf], rb])
        ⟨[e1, cf], 0⟩ false [] [] [] s =
        (.ok (.inl (AST.SetComp a1 comps (get_line_range
          (CST.nodeOf syms.atom [lb, CST.nodeOf syms.dictsetmaker [e1, cf], rb])))), s2) := by
      simp [dictset_step, dictset_comp_check, Consumer.consume, he1d', he1s', hcf,
        hv1, hcomp, hne1, hne2]
    show visit_atom (visit ver fuel) fuel
      (CST.nodeOf syms.atom [lb, CST.nodeOf syms.dictsetmaker [e1, cf], rb]) s = _
    rw [visit_atom_brace (visit ver fuel) fuel lb (CST.nodeOf syms.dictsetmaker [e1, cf])
      rb hlb rfl]
    simp [dictset_loop, Consumer.done, hstep]
  · intro hv1 hw1 hcomp
    have hstep : dictset_step (visit ver fuel) fuel
        (CST.nodeOf syms.atom [lb, CST.nodeOf syms.dictsetmaker [e1, colonL, w, cf], rb])
        ⟨[e1, colonL, w, cf], 0⟩ false [] [] [] s =
        (.ok (.inl (AST.DictComp (some a1) wv1 comps (get_line_range
          (CST.nodeOf syms.atom
            [lb, CST.nodeOf syms.dictsetmaker [e1, colonL, w, cf], rb])))), s3) := by
      simp [dictset_step, dictset_comp_check, Consumer.consume, he1d', he1s', hcol, hcf,
        hv1, hw1, hcomp, hne3]
    show visit_atom (visit ver fuel) fuel
      (CST.nodeOf syms.atom [lb, CST.nodeOf syms.dictsetmaker [e1, colonL, w, cf], rb])
        s = _
    rw [visit_atom_brace (visit ver fuel) fuel lb
      (CST.nodeOf syms.dictsetmaker [e1, colonL, w, cf]) rb hlb rfl]
    simp [dictset_loop, Consumer.done, hstep]
  · intro hv1 hv2 hcomp
    have hstep1 : dictset_step (visit ver fuel) fuel
        (CST.nodeOf syms.atom [lb, CST.nodeOf syms.dictsetmaker [e1, commaL, e2, cf], rb])
        ⟨[e1, commaL, e2, cf], 0⟩ false [] [] [] s =
        (.ok (.inr ⟨⟨[e1, commaL, e2, cf], 1⟩, false, [], [], [a1]⟩), s1) := by
      simp [dictset_step, dictset_comp_check, Consumer.consume, he1d', he1s', hcomma,
        hv1, hne4, hne5, hne6]
    have hcm : Consumer.consume ⟨[e1, commaL, e2, cf], 1⟩ (some token.COMMA) =
        (some commaL, ⟨[e1, commaL, e2, cf], 2⟩) := by
      simp [Consumer.consume, hcomma]
    have hstep2 : dictset_step (visit ver fuel) fuel
        (CST.nodeOf syms.atom [lb, CST.nodeOf syms.dictsetmaker [e1, commaL, e2, cf], rb])
        ⟨[e1, commaL, e2, cf], 2⟩ false [] [] [a1] s1 =
        (.error .assertionError, s3) := by
      simp [dictset_step, dictset_comp_check, Consumer.consume, he2d', he2s', hcf,
        hv2, hcomp, hne1, hne2]
    show visit_atom (visit ver fuel) fuel
      (CST.nodeOf syms.atom [lb, CST.nodeOf syms.dictsetmaker [e1, commaL, e2, cf], rb])
        s = _
    rw [visit_atom_brace (visit ver fuel) fuel lb
      (CST.nodeOf syms.dictsetmaker [e1, commaL, e2, cf]) rb hlb rfl]
    simp [dictset_loop, Consumer.done, hstep1, hcm, hstep2]
  · intro hv1 hw1 hv2 hw2 hcomp
    have hstep1 : dictset_step (visit ver fuel) fuel
        (CST.nodeOf syms.atom
          [lb, CST.nodeOf syms.dictsetmaker [e1, colonL, w, commaL, e2, colonL, w, cf], rb])
        ⟨[e1, colonL, w, commaL, e2, colonL, w, cf], 0⟩ false [] [] [] s =
        (.ok (.inr ⟨⟨[e1, colonL, w, commaL, e2, colonL, w, cf], 3⟩, true,
          [some a1], [wv1], []⟩), s2) := by
      simp [dictset_step, dictset_comp_check, Consumer.consume, he1d', he1s', hcol,
        hcomma, hv1, hw1, hne3, hne6]
    have hcm : Consumer.consume ⟨[e1, colonL, w, commaL, e2, colonL, w, cf], 3⟩
        (some token.COMMA) =
        (some commaL, ⟨[e1, colonL, w, commaL, e2, colonL, w, cf], 4⟩) := by
      simp [Consumer.consume, hcomma]
    have hstep2 : dictset_step (visit ver fuel) fuel
        (CST.nodeOf syms.atom
          [lb, CST.nodeOf syms.dictsetmaker [e1, colonL, w, commaL, e2, colonL, w, cf], rb])
        ⟨[e1, colonL, w, commaL, e2, colonL, w, cf], 4⟩ true [some a1] [wv1] [] s2 =
        (.error .assertionError, s5) := by
      simp [dictset_step, dictset_comp_check, Consumer.consume, he2d', he2s', hcol, hcf,
        hv2, hw2, hcomp, hne3]
    show visit_atom (visit ver fuel) fuel
      (CST.nodeOf syms.atom
        [lb, CST.nodeOf syms.dictsetmaker [e1, colonL, w, commaL, e2, colonL, w, cf], rb])
        s = _
    rw [visit_atom_brace (visit ver fuel) fuel lb
      (CST.nodeOf syms.dictsetmaker [e1, colonL, w, commaL, e2, colonL, w, cf]) rb hlb rfl]
    simp [dictset_loop, Consumer.done, hstep1, hcm, hstep2]

end Lib2toast

namespace Lib2toast

/-- The comprehension clause `for x in y` used by the C4 witness. -/
def braceW_cf : CST := CST.nodeOf syms.comp_for
  [CST.leaf token.NAME "for" 1 6, CST.leaf token.NAME "x" 1 10,
   CST.leaf token.NAME "in" 1 12, CST.leaf token.NAME "y" 1 15]

/-- Its lowering: one clause, target `x` under Store, iterable `y` under Load. -/
def braceW_comps : List ComprehensionNode :=
  [ComprehensionNode.mk (AST.Name "x" ExprContext.Store ⟨1, 10, 1, 11⟩)
    (AST.Name "y" ExprContext.Load ⟨1, 15, 1, 16⟩) [] 0]

/-- Witness for C4: `{a <comp>}` becomes a `SetComp`, `{a: v <comp>}` a
`DictComp`; `{a, b <comp>}` and `{a: v, b: v <comp>}` fail with the
malformed-tree assertion instead of producing a literal. -/
theorem brace_comprehension_threshold_witness :
    (visit ver312 2 (CST.nodeOf syms.atom
        [CST.leaf token.LBRACE "\x7b" 1 0,
         CST.nodeOf syms.dictsetmaker [CST.leaf token.NAME "a" 1 1, braceW_cf],
         CST.leaf token.RBRACE "\x7d" 1 20]) ExprContext.Load =
      (.ok (AST.SetComp (AST.Name "a" ExprContext.Load ⟨1, 1, 1, 2⟩) braceW_comps
        ⟨1, 0, 1, 21⟩), ExprContext.Load)) ∧
    (visit ver312 2 (CST.nodeOf syms.atom
        [CST.leaf token.LBRACE "\x7b" 1 0,
         CST.nodeOf syms.dictsetmaker
           [CST.leaf token.NAME "a" 1 1, CST.leaf token.COLON ":" 1 2,
            CST.leaf token.NAME "v" 1 3, braceW_cf],
         CST.leaf token.RBRACE "\x7d" 1 20]) ExprContext.Load =
      (.ok (AST.DictComp (some (AST.Name "a" ExprContext.Load ⟨1, 1, 1, 2⟩))
        (AST.Name "v" ExprContext.Load ⟨1, 3, 1, 4⟩) braceW_comps ⟨1, 0, 1, 21⟩),
        ExprContext.Load)) ∧
    (visit ver312 2 (CST.nodeOf syms.atom
        [CST.leaf token.LBRACE "\x7b" 1 0,
         CST.nodeOf syms.dictsetmaker
           [CST.leaf token.NAME "a" 1 1, CST.leaf token.COMMA "," 1 2,
            CST.leaf token.NAME "b" 1 4, braceW_cf],
         CST.leaf token.RBRACE "\x7d" 1 20]) ExprContext.Load =
      (.error .assertionError, ExprContext.Load)) ∧
    (visit ver312 2 (CST.nodeOf syms.atom
        [CST.leaf token.LBRACE "\x7b" 1 0,
         CST.nodeOf syms.dictsetmaker
           [CST.leaf token.NAME "a" 1 1, CST.leaf token.COLON ":" 1 2,
            CST.leaf token.NAME "v" 1 3, CST.leaf token.COMMA "," 1 2,
            CST.leaf token.NAME "b" 1 4, CST.leaf token.COLON ":" 1 2,
            CST.leaf token.NAME "v" 1 3, braceW_cf],
         CST.leaf token.RBRACE "\x7d" 1 20]) ExprContext.Load =
      (.error .assertionError, ExprContext.Load)) := by
  have h := brace_comprehension_threshold ver312 1
    (CST.leaf token.LBRACE "\x7b" 1 0) (CST.leaf token.RBRACE "\x7d" 1 20)
    (CST.leaf token.NAME "a" 1 1) (CST.leaf token.NAME "b" 1 4)
    (CST.leaf token.NAME "v" 1 3) (CST.leaf token.COLON ":" 1 2)
    (CST.leaf token.COMMA "," 1 2) braceW_cf
    (AST.Name "a" ExprContext.Load ⟨1, 1, 1, 2⟩)
    (AST.Name "b" ExprContext.Load ⟨1, 4, 1, 5⟩)
    (AST.Name "v" ExprContext.Load ⟨1, 3, 1, 4⟩)
    (AST.Name "v" ExprContext.Load ⟨1, 3, 1, 4⟩)
    braceW_comps
    ExprContext.Load ExprContext.Load ExprContext.Load ExprContext.Load
    ExprContext.Load ExprContext.Load
    rfl (by decide) (by decide) (by decide) (by decide) rfl rfl rfl
  exact ⟨(h.1 rfl rfl).trans rfl, (h.2.1 rfl rfl rfl).trans rfl,
    (h.2.2.1 rfl rfl rfl).trans rfl, (h.2.2.2 rfl rfl rfl rfl rfl).trans rfl⟩

end Lib2toast
